import Mathlib

/-!
Verification of the bcachefs superblock subsystem (`libbcachefs/super-io.c`).

The C sources are shallowly embedded: machine integers become `Nat` with an
explicit `% 2 ^ w` wherever overflow can matter, raw on-disk records become
Lean structures, and fallible C functions return `Option`/`Except`.  Constants
and struct layouts that live in headers absent from the source tree
(`bcachefs_format.h`, `super-io.h`, `vstructs.h`) are modelled from the spec;
each such definition carries a doc comment saying so.  Only use of the
constants below is by equality / comparison, so their exact numeric values
never influence the theorems.
-/

set_option maxHeartbeats 1000000

namespace BchSB

/-- Modelled from the spec: the fixed 16-byte magic constant (`BCACHE_MAGIC`
from the missing format header), represented as one number; the code only
ever compares it for equality (`uuid_le_cmp`). -/
def BCACHE_MAGIC : Nat := 0xc68573f64e1a45ca8265f57f48ba6d81

/-- Modelled from the spec: the single supported on-disk version
(`BCACHE_SB_VERSION_CDEV_V4`); the code only compares it for equality. -/
def BCACHE_SB_VERSION_CDEV_V4 : Nat := 6

/-- Modelled from the spec: the well-known default superblock sector
(`BCH_SB_SECTOR`); only compared for equality. -/
def BCH_SB_SECTOR : Nat := 1016

/-- Modelled from the spec: the well-known sector holding the layout record
(`BCH_SB_LAYOUT_SECTOR`). -/
def BCH_SB_LAYOUT_SECTOR : Nat := 7

/-- Modelled from the spec: the layout is a fixed 512-byte record whose header
(16-byte magic, three 1-byte fields, 5 pad bytes) leaves room for
`(512 - 24) / 8 = 61` backup-offset slots (`ARRAY_SIZE(layout->sb_offset)`). -/
def maxSbOffsets : Nat := 61

/-! ### Layout (`struct bch_sb_layout`) and `validate_sb_layout` -/

/-- The fixed 512-byte layout record.  `sb_offset` models the fixed u64 array
of `maxSbOffsets` slots; reads use `getD _ 0` (a slot never written reads as
whatever the array held — validation only reads the first `nr_superblocks`). -/
structure Layout where
  magic : Nat
  layout_type : Nat
  sb_max_size_bits : Nat
  nr_superblocks : Nat
  sb_offset : List Nat
deriving Repr, DecidableEq

/-- The offset-overlap loop of `validate_sb_layout`: walks offsets 1 .. nr-1,
failing when one is below the previous plus `max_sectors` (u64 addition, hence
the `% 2 ^ 64`). -/
def sbOffsetsLoop (offs : List Nat) (prev maxSectors : Nat) : Option String :=
  match offs with
  | [] => none
  | o :: rest =>
      if o < (prev + maxSectors) % 2 ^ 64 then
        some "Invalid superblock layout: superblocks overlap"
      else sbOffsetsLoop rest o maxSectors

/-- Embedding of `validate_sb_layout` (super-io.c:195).  Checks, in source
order: magic, layout type, superblock count nonzero, count within the array,
then the overlap loop with `max_sectors = 1 << sb_max_size_bits`. -/
def validate_sb_layout (l : Layout) : Option String :=
  if l.magic ≠ BCACHE_MAGIC then
    some "Not a bcachefs superblock layout"
  else if l.layout_type ≠ 0 then
    some "Invalid superblock layout type"
  else if l.nr_superblocks = 0 then
    some "Invalid superblock layout: no superblocks"
  else if maxSbOffsets < l.nr_superblocks then
    some "Invalid superblock layout: too many superblocks"
  else
    sbOffsetsLoop ((List.range' 1 (l.nr_superblocks - 1)).map fun i => l.sb_offset.getD i 0)
      (l.sb_offset.getD 0 0) (1 <<< l.sb_max_size_bits)

lemma sbOffsetsLoop_range'_none_iff (f : Nat → Nat) (m : Nat) :
    ∀ n k, sbOffsetsLoop ((List.range' (k + 1) n).map f) (f k) m = none ↔
      ∀ i, k ≤ i → i < k + n → (f i + m) % 2 ^ 64 ≤ f (i + 1) := by
  intro n
  induction n with
  | zero =>
      intro k
      simp [sbOffsetsLoop]
      omega
  | succ n ih =>
      intro k
      rw [List.range'_succ]
      simp only [List.map_cons, sbOffsetsLoop]
      by_cases h : f (k + 1) < (f k + m) % 2 ^ 64
      · simp only [if_pos h]
        constructor
        · intro hc; exact absurd hc (by simp)
        · intro hall
          exact absurd (hall k le_rfl (by omega)) (by omega)
      · simp only [if_neg h]
        rw [ih (k + 1)]
        constructor
        · intro hall i hki hilt
          rcases Nat.eq_or_lt_of_le hki with rfl | hlt
          · omega
          · exact hall i hlt (by omega)
        · intro hall i hki hilt
          exact hall i (by omega) (by omega)

/-- C8: `validate_sb_layout` accepts a layout iff the magic matches the fixed
constant, the layout type is 0, the superblock count is in `[1, 61]`, and
each successive offset is at least the previous plus `2 ^ sb_max_size_bits`
sectors (under the no-overflow side condition on the u64 additions). -/
theorem c8_validate_sb_layout_iff (l : Layout)
    (hnov : ∀ i < maxSbOffsets, l.sb_offset.getD i 0 + 2 ^ l.sb_max_size_bits < 2 ^ 64) :
    validate_sb_layout l = none ↔
      (l.magic = BCACHE_MAGIC ∧ l.layout_type = 0 ∧
       1 ≤ l.nr_superblocks ∧ l.nr_superblocks ≤ maxSbOffsets ∧
       ∀ i, i + 1 < l.nr_superblocks →
         l.sb_offset.getD i 0 + 2 ^ l.sb_max_size_bits ≤ l.sb_offset.getD (i + 1) 0) := by
  unfold validate_sb_layout
  by_cases hm : l.magic = BCACHE_MAGIC
  · by_cases ht : l.layout_type = 0
    · by_cases hz : l.nr_superblocks = 0
      · simp [hm, ht, hz]
      · by_cases hmx : maxSbOffsets < l.nr_superblocks
        · simp [hm, ht, hz, hmx]
        · have hloop := sbOffsetsLoop_range'_none_iff
            (fun i => l.sb_offset.getD i 0) (1 <<< l.sb_max_size_bits)
            (l.nr_superblocks - 1) 0
          simp only [Nat.zero_add] at hloop
          rw [if_neg (fun h => h hm), if_neg (fun h => h ht), if_neg hz, if_neg hmx]
          rw [hloop]
          have hshift : (1 : Nat) <<< l.sb_max_size_bits = 2 ^ l.sb_max_size_bits := by
            rw [Nat.shiftLeft_eq, one_mul]
          constructor
          · intro hall
            refine ⟨hm, ht, by omega, by omega, ?_⟩
            intro i hilt
            have hb := hnov i (by omega)
            have := hall i (Nat.zero_le i) (by omega)
            rw [hshift, Nat.mod_eq_of_lt hb] at this
            exact this
          · rintro ⟨-, -, -, -, hall⟩ i - hilt
            have hb := hnov i (by omega)
            rw [hshift, Nat.mod_eq_of_lt hb]
            exact hall i (by omega)
    · simp [hm, ht]
  · simp [hm]

/-- C8 witness: a concrete two-copy layout with gap `2 ^ 3` validates, by the
theorem's forward use at that input. -/
theorem c8_validate_sb_layout_iff_w :
    validate_sb_layout ⟨BCACHE_MAGIC, 0, 3, 2, [8, 16]⟩ = none :=
  (c8_validate_sb_layout_iff ⟨BCACHE_MAGIC, 0, 3, 2, [8, 16]⟩ (by decide)).mpr
    (by refine ⟨rfl, rfl, by decide, by decide, ?_⟩
        intro i hi
        have hi2 : i + 1 < 2 := hi
        have hi0 : i = 0 := by omega
        subst hi0
        decide)

/-! ### Superblock buffer manager (`__bch2_super_realloc`, `bch2_sb_realloc`,
`bch2_fs_sb_realloc`).  Allocation failure (`ENOMEM`, `dynamic_fault`) is an
environment outcome and is modelled as allocation succeeding. -/

/-- Modelled from the spec: byte size of the fixed `struct bch_sb` header
preceding the field directory (the struct layout is in the missing format
header; §6 lists its contents, which pack to 752 bytes).  The theorems below
do not depend on the exact value. -/
def sbHeaderBytes : Nat := 752

/-- `__vstruct_bytes(struct bch_sb, u64s)`: the fixed header plus `u64s`
64-bit words of field directory. -/
def vstructBytesSb (u64s : Nat) : Nat := sbHeaderBytes + 8 * u64s

def PAGE_SIZE : Nat := 4096

/-- Kernel `get_order`: the smallest page-block order whose size covers
`bytes`. -/
def get_order (bytes : Nat) : Nat := Nat.clog 2 ((bytes + PAGE_SIZE - 1) / PAGE_SIZE)

/-- The mutable state of a per-device superblock buffer
(`struct bcache_superblock`): its current page order, whether a buffer is
allocated (`sb != NULL`), and the `sb_max_size_bits` of the superblock it
holds. -/
structure DevSbBuf where
  page_order : Nat
  allocated : Bool
  sb_max_size_bits : Nat
deriving Repr, DecidableEq

/-- Embedding of `__bch2_super_realloc` (super-io.c:46): no-op when the
buffer already has at least the requested order, otherwise reallocates at
the requested order (allocation modelled as succeeding). -/
def __bch2_super_realloc (b : DevSbBuf) (order : Nat) : DevSbBuf :=
  if order ≤ b.page_order ∧ b.allocated = true then b
  else { b with page_order := order, allocated := true }

/-- Embedding of `bch2_sb_realloc` (super-io.c:80): fails with `ENOSPC` when
the desired byte size exceeds the per-copy budget
`512 << layout.sb_max_size_bits`, else grows the buffer. -/
def bch2_sb_realloc (b : DevSbBuf) (u64s : Nat) : Except String DevSbBuf :=
  let new_bytes := vstructBytesSb u64s
  let max_bytes := 512 <<< b.sb_max_size_bits
  if max_bytes < new_bytes then .error "ENOSPC"
  else .ok (__bch2_super_realloc b (get_order new_bytes))

/-- The filesystem-wide logical superblock buffer (`c->disk_sb` pointer and
`c->disk_sb_order`). -/
structure FsSbBuf where
  disk_sb : Bool
  disk_sb_order : Nat
deriving Repr, DecidableEq

/-- Embedding of `bch2_fs_sb_realloc` (super-io.c:96): grows the
filesystem-wide buffer to the order covering the desired size.  Note the
source performs no size-budget comparison here; with allocation modelled as
succeeding the function always succeeds. -/
def bch2_fs_sb_realloc (c : FsSbBuf) (u64s : Nat) : Except String FsSbBuf :=
  let bytes := vstructBytesSb u64s
  let order := get_order bytes
  if c.disk_sb = true ∧ order ≤ c.disk_sb_order then .ok c
  else .ok { disk_sb := true, disk_sb_order := order }

/-- C3 counterexample: with `sb_max_size_bits = 0` the desired size
(752 bytes at `u64s = 0`) exceeds the budget `512`, and the per-device
`bch2_sb_realloc` duly fails with the size-exceeded error — but
`bch2_fs_sb_realloc` at the same desired size succeeds: the hard limit is
not enforced for the filesystem-wide logical buffer. -/
theorem c3_fs_sb_realloc_no_limit_cex :
    512 <<< 0 < vstructBytesSb 0 ∧
    bch2_sb_realloc ⟨0, true, 0⟩ 0 = .error "ENOSPC" ∧
    bch2_fs_sb_realloc ⟨false, 0⟩ 0 = .ok ⟨true, get_order (vstructBytesSb 0)⟩ := by
  refine ⟨by decide, by rfl, by rfl⟩

/-- C3 amended: growing a per-device buffer via `bch2_sb_realloc` fails with
the size-exceeded error exactly when the desired size exceeds
`512 << layout.sb_max_size_bits`; `bch2_fs_sb_realloc` performs no such
check and (allocation permitting) always succeeds — the hard limit reaches
the filesystem-wide resize path only through the per-device reallocs that
`bch2_fs_sb_field_resize` performs for each online member. -/
theorem c3_sb_realloc_limit (b : DevSbBuf) (c : FsSbBuf) (u64s : Nat) :
    ((∃ e, bch2_sb_realloc b u64s = .error e) ↔
       512 <<< b.sb_max_size_bits < vstructBytesSb u64s) ∧
    (∃ r, bch2_fs_sb_realloc c u64s = .ok r) := by
  constructor
  · unfold bch2_sb_realloc
    by_cases h : 512 <<< b.sb_max_size_bits < vstructBytesSb u64s
    · simp [h]
    · simp [h]
  · unfold bch2_fs_sb_realloc
    by_cases h : c.disk_sb = true ∧ get_order (vstructBytesSb u64s) ≤ c.disk_sb_order
    · exact ⟨c, by simp [h]⟩
    · exact ⟨⟨true, get_order (vstructBytesSb u64s)⟩, by simp [h]⟩

/-! ### Field directory (`bch2_sb_field_get`, `__bch2_sb_field_resize`,
`bch2_sb_field_resize`) — word-level model.

A field occupies `u64s` consecutive 64-bit words, of which the first holds
the `u64s : le32, type : le32` header (`struct bch_sb_field`); the directory
is the packed concatenation of fields.  The model represents a field by its
type tag and payload words, so its `u64s` is `payload length + 1`; this is
exactly the class of structurally well-formed directories (every declared
`u64s` nonzero and in bounds), which `bch2_sb_validate` enforces before any
image is trusted. -/

namespace FieldDir

structure Field where
  type : Nat
  data : List Nat
deriving Repr, DecidableEq

/-- Declared total word count of a field (`le32_to_cpu(f->u64s)`). -/
def Field.u64s (f : Field) : Nat := f.data.length + 1

/-- Serialization of one field: the header word (`u64s` in the low 32 bits,
`type` in the high 32) followed by the payload words. -/
def Field.ser (f : Field) : List Nat :=
  (f.u64s % 2 ^ 32 + 2 ^ 32 * (f.type % 2 ^ 32)) :: f.data

/-- The serialized byte image of a field directory (as 64-bit words). -/
def serFields (fs : List Field) : List Nat := (fs.map Field.ser).flatten

/-- Total directory word count `sb->u64s` (maintained by `le32_add_cpu`). -/
def sbU64s (fs : List Field) : Nat := (fs.map Field.u64s).sum

/-- Embedding of `bch2_sb_field_get` (super-io.c:22): linear scan for the
first field of the given type. -/
def bch2_sb_field_get (fs : List Field) (ty : Nat) : Option Field :=
  fs.find? (fun f => f.type == ty)

/-- The payload adjustment performed by `__bch2_sb_field_resize`
(super-io.c:119) on the resized field itself: the retained prefix stays in
place, newly exposed words are zero-filled (`memset`), a shrink truncates. -/
def resizeData (d : List Nat) (n : Nat) : List Nat :=
  d.take (n - 1) ++ List.replicate (n - 1 - d.length) 0

/-- Embedding of `__bch2_sb_field_resize` (super-io.c:119) combined with the
caller's `f->type = type` store (super-io.c:160): the first field of the
given type is resized in place — the `memmove` shifts the trailing fields as
one block, preserving their contents — or, when absent, a fresh zero-filled
field is appended at `vstruct_last(sb)`. -/
def fieldResize (fs : List Field) (ty n : Nat) : List Field :=
  match fs with
  | [] => [⟨ty, List.replicate (n - 1) 0⟩]
  | f :: rest =>
      if f.type = ty then ⟨ty, resizeData f.data n⟩ :: rest
      else f :: fieldResize rest ty n

/-- A superblock image for the resize path: its per-copy budget bits and its
field directory. -/
structure SbImage where
  sb_max_size_bits : Nat
  fields : List Field
deriving Repr, DecidableEq

/-- Embedding of `bch2_sb_field_resize` (super-io.c:148): computes the new
total word count, checks the per-copy budget via `bch2_sb_realloc` (memory
allocation modelled as succeeding), then resizes the directory. -/
def bch2_sb_field_resize (sb : SbImage) (ty n : Nat) : Option SbImage :=
  let old := match bch2_sb_field_get sb.fields ty with
             | some f => f.u64s
             | none => 0
  let newU64s := sbU64s sb.fields - old + n
  if 512 <<< sb.sb_max_size_bits < vstructBytesSb newU64s then none
  else some { sb with fields := fieldResize sb.fields ty n }

lemma resizeData_length (d : List Nat) (n : Nat) : (resizeData d n).length = n - 1 := by
  simp [resizeData]
  omega

lemma fieldResize_get_self (fs : List Field) (ty n : Nat) :
    ∃ f, bch2_sb_field_get (fieldResize fs ty n) ty = some f ∧
      f.type = ty ∧ f.u64s = n - 1 + 1 := by
  induction fs with
  | nil =>
      refine ⟨⟨ty, List.replicate (n - 1) 0⟩, ?_, rfl, by simp [Field.u64s]⟩
      simp [fieldResize, bch2_sb_field_get]
  | cons f rest ih =>
      by_cases h : f.type = ty
      · refine ⟨⟨ty, resizeData f.data n⟩, ?_, rfl, by simp [Field.u64s, resizeData_length]⟩
        simp [fieldResize, h, bch2_sb_field_get]
      · obtain ⟨g, hg, hgt, hgu⟩ := ih
        refine ⟨g, ?_, hgt, hgu⟩
        simp only [fieldResize, if_neg h]
        rw [bch2_sb_field_get, List.find?_cons_of_neg _ (by simp [h])]
        exact hg

lemma fieldResize_absent (fs : List Field) (ty n : Nat)
    (h : bch2_sb_field_get fs ty = none) :
    fieldResize fs ty n = fs ++ [⟨ty, List.replicate (n - 1) 0⟩] := by
  induction fs with
  | nil => simp [fieldResize]
  | cons f rest ih =>
      simp only [bch2_sb_field_get, List.find?] at h
      by_cases hf : f.type = ty
      · simp [hf] at h
      · have hf' : (f.type == ty) = false := by simp [hf]
        rw [hf'] at h
        simp only [fieldResize, if_neg hf, List.cons_append]
        rw [ih h]

lemma fieldResize_split (P : List Field) (old : Field) (S : List Field) (ty n : Nat)
    (hold : old.type = ty) (hP : ∀ g ∈ P, g.type ≠ ty) :
    fieldResize (P ++ old :: S) ty n = P ++ ⟨ty, resizeData old.data n⟩ :: S := by
  induction P with
  | nil =>
      simp [fieldResize, hold]
  | cons g P' ih =>
      have hg : g.type ≠ ty := hP g (by simp)
      simp only [List.cons_append, fieldResize, if_neg hg]
      exact congrArg (g :: ·) (ih (fun x hx => hP x (by simp [hx])))

lemma serFields_append (a b : List Field) :
    serFields (a ++ b) = serFields a ++ serFields b := by
  simp [serFields]

/-- C7: when `bch2_sb_field_resize` succeeds for a word count `n ≥ 1`,
`bch2_sb_field_get` afterwards returns a field of that type with exactly `n`
words; if no field of the type existed the new field is appended at the end
of the directory; and when one existed, the directory splits as
`prefix ++ field ++ suffix` with the serialized prefix and suffix — every
byte outside the field's old/new span — unchanged. -/
theorem c7_field_resize_roundtrip (sb sb' : SbImage) (ty n : Nat)
    (hn : 1 ≤ n) (hs : bch2_sb_field_resize sb ty n = some sb') :
    (∃ f, bch2_sb_field_get sb'.fields ty = some f ∧ f.type = ty ∧ f.u64s = n) ∧
    (bch2_sb_field_get sb.fields ty = none →
       sb'.fields = sb.fields ++ [⟨ty, List.replicate (n - 1) 0⟩]) ∧
    (∀ P old S, sb.fields = P ++ old :: S → old.type = ty →
       (∀ g ∈ P, g.type ≠ ty) →
       sb'.fields = P ++ ⟨ty, resizeData old.data n⟩ :: S ∧
       serFields sb'.fields =
         serFields P ++ Field.ser ⟨ty, resizeData old.data n⟩ ++ serFields S ∧
       serFields sb.fields = serFields P ++ Field.ser old ++ serFields S) := by
  have hfs : sb'.fields = fieldResize sb.fields ty n := by
    unfold bch2_sb_field_resize at hs
    by_cases h : 512 <<< sb.sb_max_size_bits <
        vstructBytesSb (sbU64s sb.fields -
          (match bch2_sb_field_get sb.fields ty with
           | some f => f.u64s
           | none => 0) + n)
    · rw [if_pos h] at hs; exact absurd hs (by simp)
    · rw [if_neg h] at hs
      cases hs
      rfl
  refine ⟨?_, ?_, ?_⟩
  · obtain ⟨f, hf, hft, hfu⟩ := fieldResize_get_self sb.fields ty n
    exact ⟨f, by rw [hfs]; exact hf, hft, by omega⟩
  · intro habs
    rw [hfs, fieldResize_absent sb.fields ty n habs]
  · intro P old S hsplit holdty hP
    have h1 : sb'.fields = P ++ ⟨ty, resizeData old.data n⟩ :: S := by
      rw [hfs, hsplit, fieldResize_split P old S ty n holdty hP]
    refine ⟨h1, ?_, ?_⟩
    · rw [h1]
      rw [show (⟨ty, resizeData old.data n⟩ : Field) :: S =
            [⟨ty, resizeData old.data n⟩] ++ S from rfl]
      rw [serFields_append, serFields_append]
      simp [serFields]
    · rw [hsplit]
      rw [show old :: S = [old] ++ S from rfl]
      rw [serFields_append, serFields_append]
      simp [serFields]

/-- C7 witness: growing the type-3 field of a concrete three-field directory
from 3 to 4 words, by the theorem at that input: the resized field reads
back with 4 words (payload zero-extended), and the serialized neighbours on
both sides are untouched. -/
theorem c7_field_resize_roundtrip_w :
    (∃ f, bch2_sb_field_get
        [⟨1, [5]⟩, ⟨3, [7, 7, 0]⟩, ⟨2, [9]⟩] 3 = some f ∧ f.type = 3 ∧ f.u64s = 4) ∧
    serFields [⟨1, [5]⟩, ⟨3, [7, 7, 0]⟩, ⟨2, [9]⟩] =
      serFields [⟨1, [5]⟩] ++ Field.ser ⟨3, [7, 7, 0]⟩ ++ serFields [⟨2, [9]⟩] ∧
    serFields [⟨1, [5]⟩, ⟨3, [7, 7]⟩, ⟨2, [9]⟩] =
      serFields [⟨1, [5]⟩] ++ Field.ser ⟨3, [7, 7]⟩ ++ serFields [⟨2, [9]⟩] := by
  have h := c7_field_resize_roundtrip ⟨4, [⟨1, [5]⟩, ⟨3, [7, 7]⟩, ⟨2, [9]⟩]⟩
      ⟨4, [⟨1, [5]⟩, ⟨3, [7, 7, 0]⟩, ⟨2, [9]⟩]⟩ 3 4 (by decide) (by decide)
  obtain ⟨h1, -, h3⟩ := h
  have hsp := h3 [⟨1, [5]⟩] ⟨3, [7, 7]⟩ [⟨2, [9]⟩] rfl rfl (by decide)
  exact ⟨h1, by simpa [resizeData] using hsp.2.1, hsp.2.2⟩

/-! ### `__copy_super` and `bch2_sb_from_fs` (super-io.c:475, 532) -/

/-- Modelled from the spec: the field type tags
(`enum bch_sb_field_type`, missing format header); journal is tag 0,
members 1, crypt 2, replicas 3. -/
def BCH_SB_FIELD_journal : Nat := 0

def BCH_SB_FIELD_members : Nat := 1

def BCH_SB_FIELD_replicas : Nat := 3

def BCH_SB_FIELD_NR : Nat := 4

/-- The fixed superblock header words around the field directory; the model
keeps every header field `__copy_super` reads or deliberately leaves alone
(`csum` is recomputed at write time and omitted). -/
structure SbHeader where
  magic : Nat
  version : Nat
  seq : Nat
  uuid : Nat
  user_uuid : Nat
  label : List Nat
  offset : Nat
  block_size : Nat
  dev_idx : Nat
  nr_devices : Nat
  time_base_lo : Nat
  time_base_hi : Nat
  time_precision : Nat
  flags : List Nat
  features : List Nat
  compat : List Nat
  layout : Layout
deriving Repr, DecidableEq

/-- A full superblock image: header plus field directory. -/
structure Sb where
  header : SbHeader
  fields : List Field
deriving Repr, DecidableEq

/-- One iteration of the `__copy_super` field loop: `bch2_sb_field_get` for
the source field's type, `__bch2_sb_field_resize` to the source size, then
`memcpy` of the whole source field over it — net effect: the first
destination field of that type is replaced by the source field, or the
source field is appended when absent. -/
def copyOneField (fs : List Field) (f : Field) : List Field :=
  match fs with
  | [] => [f]
  | g :: rest => if g.type = f.type then f :: rest else g :: copyOneField rest f

/-- Embedding of `__copy_super` (super-io.c:475): copies the shared header
words (version, seq, uuids, label, block size, device count, time fields,
flags, features, compat) and every non-journal field of the source; the
destination keeps its own magic, offset, `dev_idx`, layout and journal
field. -/
def __copy_super (dst src : Sb) : Sb :=
  { header := { src.header with
      magic := dst.header.magic,
      offset := dst.header.offset,
      dev_idx := dst.header.dev_idx,
      layout := dst.header.layout },
    fields := (src.fields.filter fun f => f.type ≠ BCH_SB_FIELD_journal).foldl
      copyOneField dst.fields }

/-- Embedding of `bch2_sb_from_fs` (super-io.c:532): grow the device buffer
to the filesystem image plus the device's own journal field (checking the
per-copy budget via `bch2_sb_realloc`), then `__copy_super`. -/
def bch2_sb_from_fs (src dst : Sb) : Option Sb :=
  let journal_u64s := match bch2_sb_field_get dst.fields BCH_SB_FIELD_journal with
                      | some j => j.u64s
                      | none => 0
  let u64s := sbU64s src.fields + journal_u64s
  if 512 <<< dst.header.layout.sb_max_size_bits < vstructBytesSb u64s then none
  else some (__copy_super dst src)

lemma copyOneField_get_self (fs : List Field) (f : Field) :
    bch2_sb_field_get (copyOneField fs f) f.type = some f := by
  induction fs with
  | nil => simp [copyOneField, bch2_sb_field_get]
  | cons g rest ih =>
      by_cases h : g.type = f.type
      · simp [copyOneField, h, bch2_sb_field_get]
      · simp only [copyOneField, if_neg h]
        rw [bch2_sb_field_get, List.find?_cons_of_neg _ (by simp [h])]
        exact ih

lemma copyOneField_get_other (fs : List Field) (f : Field) (t : Nat) (h : f.type ≠ t) :
    bch2_sb_field_get (copyOneField fs f) t = bch2_sb_field_get fs t := by
  induction fs with
  | nil =>
      simp only [copyOneField]
      rw [bch2_sb_field_get, List.find?_cons_of_neg _ (by simp [h])]
      rfl
  | cons g rest ih =>
      by_cases hg : g.type = f.type
      · simp only [copyOneField, if_pos hg]
        rw [bch2_sb_field_get, List.find?_cons_of_neg _ (by simp [h]),
          bch2_sb_field_get, List.find?_cons_of_neg _ (by simp [hg ▸ h])]
      · simp only [copyOneField, if_neg hg]
        by_cases hgt : g.type = t
        · rw [bch2_sb_field_get, List.find?_cons_of_pos _ (by simp [hgt]),
            bch2_sb_field_get, List.find?_cons_of_pos _ (by simp [hgt])]
        · rw [bch2_sb_field_get, List.find?_cons_of_neg _ (by simp [hgt]),
            bch2_sb_field_get, List.find?_cons_of_neg _ (by simp [hgt])]
          exact ih

lemma copyFold_get_untouched (L fs : List Field) (t : Nat)
    (h : ∀ f ∈ L, f.type ≠ t) :
    bch2_sb_field_get (L.foldl copyOneField fs) t = bch2_sb_field_get fs t := by
  induction L generalizing fs with
  | nil => rfl
  | cons f L' ih =>
      rw [List.foldl_cons, ih _ (fun x hx => h x (by simp [hx])),
        copyOneField_get_other fs f t (h f (by simp))]

lemma copyFold_get_mem (L : List Field) (fs : List Field) (f : Field)
    (hnd : (L.map Field.type).Nodup) (hf : f ∈ L) :
    bch2_sb_field_get (L.foldl copyOneField fs) f.type = some f := by
  induction L generalizing fs with
  | nil => cases hf
  | cons g L' ih =>
      rw [List.map_cons, List.nodup_cons] at hnd
      rcases List.mem_cons.mp hf with rfl | hfL'
      · rw [List.foldl_cons,
          copyFold_get_untouched L' (copyOneField fs f) f.type
            (fun x hx hxt => hnd.1 (hxt ▸ List.mem_map_of_mem Field.type hx))]
        exact copyOneField_get_self fs f
      · rw [List.foldl_cons]
        exact ih (copyOneField fs g) hnd.2 hfL'

/-- C9 counterexample at a concrete pair of images: `__copy_super` leaves
the destination's `dev_idx` header field (and its layout) unchanged rather
than copying it — the header is not copied wholesale, refuting the claim as
stated. -/
theorem c9_copy_super_header_cex :
    (Sb.mk ⟨0, 6, 9, 1, 1, [], 0, 8, 1, 2, 0, 0, 1, [], [], [], ⟨0, 0, 3, 1, [8]⟩⟩ []).header.dev_idx = 1 ∧
    (__copy_super
      (Sb.mk ⟨0, 6, 9, 1, 1, [], 0, 8, 0, 2, 0, 0, 1, [], [], [], ⟨1, 0, 4, 1, [16]⟩⟩ [])
      (Sb.mk ⟨0, 6, 9, 1, 1, [], 0, 8, 1, 2, 0, 0, 1, [], [], [], ⟨0, 0, 3, 1, [8]⟩⟩ [])).header.dev_idx
      = 0 := by
  exact ⟨rfl, rfl⟩

/-- C9 amended: `__copy_super` copies the shared header fields — version,
seq, UUIDs, label, block size, device count, time base and precision, flags,
features, compat — while the device-local header fields (magic, offset,
`dev_idx`, layout) keep the destination's values; every non-journal source
field is copied byte-for-byte into the destination (first field of its type
replaced, or appended), and the destination's own journal field is left
byte-for-byte unchanged. -/
theorem c9_copy_super_frame (dst src : Sb)
    (hnd : (src.fields.map Field.type).Nodup) :
    (__copy_super dst src).header = { src.header with
      magic := dst.header.magic,
      offset := dst.header.offset,
      dev_idx := dst.header.dev_idx,
      layout := dst.header.layout } ∧
    (∀ f ∈ src.fields, f.type ≠ BCH_SB_FIELD_journal →
       bch2_sb_field_get (__copy_super dst src).fields f.type = some f) ∧
    bch2_sb_field_get (__copy_super dst src).fields BCH_SB_FIELD_journal =
      bch2_sb_field_get dst.fields BCH_SB_FIELD_journal := by
  refine ⟨rfl, ?_, ?_⟩
  · intro f hf hfj
    have hmem : f ∈ src.fields.filter fun g => g.type ≠ BCH_SB_FIELD_journal := by
      rw [List.mem_filter]
      exact ⟨hf, by simp [hfj]⟩
    have hnd' : ((src.fields.filter fun g => g.type ≠ BCH_SB_FIELD_journal).map
        Field.type).Nodup :=
      List.Nodup.sublist (List.Sublist.map Field.type (List.filter_sublist src.fields)) hnd
    exact copyFold_get_mem _ dst.fields f hnd' hmem
  · exact copyFold_get_untouched _ dst.fields BCH_SB_FIELD_journal
      (fun f hf => by
        have := (List.mem_filter.mp hf).2
        simpa using this)

/-- C9 witness: at a concrete destination with a journal field and a source
with one members-type field, the amended theorem applied at that input: the
source field reads back identically and the journal field still holds the
destination's buckets. -/
theorem c9_copy_super_frame_w :
    bch2_sb_field_get
      (__copy_super
        (Sb.mk ⟨0, 6, 9, 1, 1, [], 0, 8, 0, 2, 0, 0, 1, [], [], [], ⟨1, 0, 4, 1, [16]⟩⟩
          [⟨BCH_SB_FIELD_journal, [33, 34]⟩])
        (Sb.mk ⟨0, 6, 9, 1, 1, [], 0, 8, 1, 2, 0, 0, 1, [], [], [], ⟨0, 0, 3, 1, [8]⟩⟩
          [⟨BCH_SB_FIELD_members, [5, 6]⟩])).fields
      BCH_SB_FIELD_members = some ⟨BCH_SB_FIELD_members, [5, 6]⟩ ∧
    bch2_sb_field_get
      (__copy_super
        (Sb.mk ⟨0, 6, 9, 1, 1, [], 0, 8, 0, 2, 0, 0, 1, [], [], [], ⟨1, 0, 4, 1, [16]⟩⟩
          [⟨BCH_SB_FIELD_journal, [33, 34]⟩])
        (Sb.mk ⟨0, 6, 9, 1, 1, [], 0, 8, 1, 2, 0, 0, 1, [], [], [], ⟨0, 0, 3, 1, [8]⟩⟩
          [⟨BCH_SB_FIELD_members, [5, 6]⟩])).fields
      BCH_SB_FIELD_journal = some ⟨BCH_SB_FIELD_journal, [33, 34]⟩ := by
  have h := c9_copy_super_frame
    (Sb.mk ⟨0, 6, 9, 1, 1, [], 0, 8, 0, 2, 0, 0, 1, [], [], [], ⟨1, 0, 4, 1, [16]⟩⟩
      [⟨BCH_SB_FIELD_journal, [33, 34]⟩])
    (Sb.mk ⟨0, 6, 9, 1, 1, [], 0, 8, 1, 2, 0, 0, 1, [], [], [], ⟨0, 0, 3, 1, [8]⟩⟩
      [⟨BCH_SB_FIELD_members, [5, 6]⟩])
    (by decide)
  exact ⟨h.2.1 ⟨BCH_SB_FIELD_members, [5, 6]⟩ (by decide) (by decide),
    h.2.2.trans (by decide)⟩

end FieldDir

/-! ### Replica index (`__bch2_sb_replicas_to_cpu_replicas`,
`bch2_replicas_gc_end` re-encoding, `__bch2_replicas_status`,
`bch2_replicas_online`) -/

/-- Modelled from the spec: `enum bch_data_types` tags (missing format
header). -/
def BCH_DATA_JOURNAL : Nat := 2

def BCH_DATA_BTREE : Nat := 3

def BCH_DATA_USER : Nat := 4

def BCH_DATA_NR : Nat := 6

/-- Modelled from the spec: `BCH_REPLICAS_MAX` (missing format header). -/
def BCH_REPLICAS_MAX : Nat := 4

def UINT_MAX : Nat := 2 ^ 32 - 1

namespace Rep

/-- An on-disk replica entry (`struct bch_replicas_entry`): a data type and
the device indices holding the replicas, in on-disk order. -/
structure RepEntry where
  data_type : Nat
  devs : List Nat
deriving Repr, DecidableEq

/-- A compact in-memory replica entry.  Modelled from the spec:
`replicas_set_dev` / `replicas_test_dev` (missing `super-io.h` header)
maintain a device bitmap of `max_dev + 1` bits, modelled as the finite set
of its set bits. -/
structure CpuEntry where
  data_type : Nat
  devs : Finset Nat
deriving DecidableEq

/-- The compact index (`struct bch_replicas_cpu`). -/
structure CpuReplicas where
  entry_size : Nat
  entries : List CpuEntry
deriving DecidableEq

/-- The `max_dev` scan of `bch2_sb_replicas_nr_entries` (super-io.c:797). -/
def replicasMaxDev (es : List RepEntry) : Nat :=
  es.foldl (fun m e => e.devs.foldl max m) 0

/-- `replicas_dev_slots`: bitmap capacity in bits.  Modelled from the spec:
`entry_size` minus the 1-byte `data_type` prefix, times 8 (missing
`super-io.h`). -/
def replicas_dev_slots (r : CpuReplicas) : Nat := (r.entry_size - 1) * 8

def listLe : List Nat → List Nat → Bool
  | [], _ => true
  | _ :: _, [] => false
  | a :: as, b :: bs => if a < b then true else if b < a then false else listLe as bs

/-- Byte-wise entry comparison (`memcmp` over the `data_type` byte then the
bitmap bytes), as a total order on the modelled entries. -/
def cpuEntryLe (a b : CpuEntry) : Bool :=
  if a.data_type < b.data_type then true
  else if b.data_type < a.data_type then false
  else listLe (a.devs.sort (· ≤ ·)) (b.devs.sort (· ≤ ·))

/-- Modelled from the spec: `eytzinger0_sort` (missing `util.h`) permutes the
entry array into a byte-ordered search-tree layout; only that the result is
a permutation of the input matters below, and it is modelled as sorting
under the byte order. -/
def replicasSort (l : List CpuEntry) : List CpuEntry :=
  l.insertionSort (fun a b => cpuEntryLe a b = true)

/-- Embedding of `__bch2_sb_replicas_to_cpu_replicas` (super-io.c:821):
entry size derived from the maximum referenced device index, each on-disk
`(data_type, device list)` converted to `(data_type, bitmap)`, and the array
arranged by `eytzinger0_sort`. -/
def __bch2_sb_replicas_to_cpu_replicas (es : List RepEntry) : CpuReplicas :=
  { entry_size := 1 + (replicasMaxDev es + 1 + 7) / 8,
    entries := replicasSort (es.map fun e => ⟨e.data_type, e.devs.toFinset⟩) }

/-- The re-encoding loop of `bch2_replicas_gc_end` (super-io.c:1192): each
compact entry becomes an on-disk entry listing, in increasing device order,
the indices below `dev_slots` whose bit is set. -/
def gcReencode (r : CpuReplicas) : List RepEntry :=
  r.entries.map fun e =>
    ⟨e.data_type, (List.range (replicas_dev_slots r)).filter fun j => j ∈ e.devs⟩

lemma foldl_max_init_le (l : List Nat) (a : Nat) : a ≤ l.foldl max a := by
  induction l generalizing a with
  | nil => simp
  | cons x xs ih => exact le_trans (le_max_left a x) (ih (max a x))

lemma mem_le_foldl_max (l : List Nat) (a d : Nat) (h : d ∈ l) : d ≤ l.foldl max a := by
  induction l generalizing a with
  | nil => cases h
  | cons x xs ih =>
      rcases List.mem_cons.mp h with rfl | hx
      · exact le_trans (le_max_right a d) (foldl_max_init_le xs (max a d))
      · exact ih (max a x) hx

lemma maxDev_init_le (es : List RepEntry) (a : Nat) :
    a ≤ es.foldl (fun m x => x.devs.foldl max m) a := by
  induction es generalizing a with
  | nil => simp
  | cons e es' ih => exact le_trans (foldl_max_init_le e.devs a) (ih _)

lemma maxDev_bound_aux (es : List RepEntry) (e : RepEntry) (d : Nat) (hd : d ∈ e.devs) :
    ∀ a, e ∈ es → d ≤ es.foldl (fun m x => x.devs.foldl max m) a := by
  induction es with
  | nil =>
      intro a h
      cases h
  | cons g es' ih =>
      intro a h
      rcases List.mem_cons.mp h with rfl | hg
      · exact le_trans (mem_le_foldl_max e.devs a d hd) (maxDev_init_le es' _)
      · exact ih _ hg

lemma filter_range_toFinset (s : Finset Nat) (n : Nat) (h : ∀ d ∈ s, d < n) :
    ((List.range n).filter fun j => j ∈ s).toFinset = s := by
  ext x
  simp only [List.mem_toFinset, List.mem_filter, List.mem_range, decide_eq_true_eq]
  exact ⟨fun hx => hx.2, fun hx => ⟨h x hx, hx⟩⟩

lemma c6_entry_roundtrip (es : List RepEntry) (e : RepEntry) (he : e ∈ es) :
    ((List.range ((1 + (replicasMaxDev es + 1 + 7) / 8 - 1) * 8)).filter
        fun j => j ∈ e.devs.toFinset).toFinset = e.devs.toFinset := by
  apply filter_range_toFinset
  intro d hd
  have hdm : d ∈ e.devs := List.mem_toFinset.mp hd
  have h1 : d ≤ replicasMaxDev es := maxDev_bound_aux es e d hdm 0 he
  have h2 : replicasMaxDev es < (1 + (replicasMaxDev es + 1 + 7) / 8 - 1) * 8 := by
    omega
  omega

/-- C6: converting the on-disk replicas field to the compact in-memory index
and re-encoding it back to on-disk entries (as `bch2_replicas_gc_end` does)
permutes the entry list but preserves every `(data_type, device_set)`
pair. -/
theorem c6_replicas_roundtrip (es : List RepEntry) :
    ((gcReencode (__bch2_sb_replicas_to_cpu_replicas es)).map
        fun e => (e.data_type, e.devs.toFinset)).Perm
      (es.map fun e => (e.data_type, e.devs.toFinset)) := by
  unfold gcReencode __bch2_sb_replicas_to_cpu_replicas
  rw [List.map_map]
  have hperm :=
    (List.perm_insertionSort (fun a b => cpuEntryLe a b = true)
      (es.map fun e => CpuEntry.mk e.data_type e.devs.toFinset)).map
      ((fun e => (e.data_type, e.devs.toFinset)) ∘
        (fun e => RepEntry.mk e.data_type
          ((List.range (replicas_dev_slots
            ⟨1 + (replicasMaxDev es + 1 + 7) / 8,
             replicasSort (es.map fun e => CpuEntry.mk e.data_type e.devs.toFinset)⟩)).filter
            fun j => j ∈ e.devs)))
  refine hperm.trans ?_
  rw [List.map_map]
  apply List.Perm.of_eq
  apply List.map_congr_left
  intro e he
  simp only [Function.comp]
  exact congrArg (Prod.mk e.data_type) (c6_entry_roundtrip es e he)

/-- The context `__bch2_replicas_status` reads: the cached device count
`c->sb.nr_devices`, the device-online predicate (collaborator per the spec),
and the optional device being considered for removal. -/
structure StatusCtx where
  nr_devices : Nat
  online : Nat → Bool
  exclude : Option Nat

/-- The per-entry device loop of `__bch2_replicas_status` (super-io.c:1023):
over slots below `dev_slots`, count set devices that are online and not the
excluded one, versus offline-or-excluded ones. -/
def entryCounts (ctx : StatusCtx) (slots : Nat) (e : CpuEntry) : Nat × Nat :=
  (List.range slots).foldl
    (fun p dev =>
      if dev ∈ e.devs then
        if ctx.online dev = true ∧ ctx.exclude ≠ some dev then (p.1 + 1, p.2)
        else (p.1, p.2 + 1)
      else p) (0, 0)

/-- One accumulation step of `__bch2_replicas_status` (super-io.c:1034):
`min` into `nr_online`, `max` into `nr_offline`, at the entry's data type. -/
def statusStep (ctx : StatusCtx) (slots : Nat) (acc : List (Nat × Nat)) (e : CpuEntry) :
    List (Nat × Nat) :=
  let c := entryCounts ctx slots e
  acc.set e.data_type
    (min (acc.getD e.data_type (0, 0)).1 c.1, max (acc.getD e.data_type (0, 0)).2 c.2)

/-- Embedding of `__bch2_replicas_status` (super-io.c:999): the per-type
`(nr_online, nr_offline)` table, initialized to `(UINT_MAX, 0)`, folded over
all compact entries. -/
def __bch2_replicas_status (ctx : StatusCtx) (r : CpuReplicas) : List (Nat × Nat) :=
  let slots := min (replicas_dev_slots r) ctx.nr_devices
  r.entries.foldl (statusStep ctx slots) (List.replicate BCH_DATA_NR (UINT_MAX, 0))

/-- Embedding of `bch2_replicas_status` (super-io.c:1048): no excluded
device. -/
def bch2_replicas_status (ctx : StatusCtx) (r : CpuReplicas) : List (Nat × Nat) :=
  __bch2_replicas_status { ctx with exclude := none } r

/-- Embedding of `bch2_replicas_online` (super-io.c:1053). -/
def bch2_replicas_online (ctx : StatusCtx) (r : CpuReplicas) (meta : Bool) : Nat :=
  let s := bch2_replicas_status ctx r
  if meta then
    min (s.getD BCH_DATA_JOURNAL (0, 0)).1 (s.getD BCH_DATA_BTREE (0, 0)).1
  else (s.getD BCH_DATA_USER (0, 0)).1

/-- The effective slot bound of the status loop. -/
def statusSlots (ctx : StatusCtx) (r : CpuReplicas) : Nat :=
  min (replicas_dev_slots r) ctx.nr_devices

/-- The online counts of all entries of one data type, in entry order. -/
def typeOnCounts (ctx : StatusCtx) (r : CpuReplicas) (t : Nat) : List Nat :=
  (r.entries.filter fun e => e.data_type = t).map
    fun e => (entryCounts ctx (statusSlots ctx r) e).1

/-- The offline counts of all entries of one data type, in entry order. -/
def typeOffCounts (ctx : StatusCtx) (r : CpuReplicas) (t : Nat) : List Nat :=
  (r.entries.filter fun e => e.data_type = t).map
    fun e => (entryCounts ctx (statusSlots ctx r) e).2

lemma getD_set_self (l : List (Nat × Nat)) (i : Nat) (h : i < l.length)
    (a d : Nat × Nat) : (l.set i a).getD i d = a := by
  rw [List.getD_eq_getElem?_getD, List.getElem?_set_eq_of_lt a h]
  rfl

lemma getD_set_ne (l : List (Nat × Nat)) (i j : Nat) (h : i ≠ j) (a d : Nat × Nat) :
    (l.set i a).getD j d = l.getD j d := by
  rw [List.getD_eq_getElem?_getD, List.getElem?_set_ne h, ← List.getD_eq_getElem?_getD]

lemma getD_replicate (n i : Nat) (h : i < n) (x d : Nat × Nat) :
    (List.replicate n x).getD i d = x := by
  rw [List.getD_eq_getElem?_getD, List.getElem?_replicate]
  simp [h]

lemma status_fold_char (ctx : StatusCtx) (slots : Nat) (es : List CpuEntry)
    (t : Nat) (ht : t < BCH_DATA_NR) :
    ∀ acc : List (Nat × Nat), acc.length = BCH_DATA_NR →
      (es.foldl (statusStep ctx slots) acc).length = BCH_DATA_NR ∧
      ((es.foldl (statusStep ctx slots) acc).getD t (0, 0)).1 =
        ((es.filter fun e => e.data_type = t).map
          fun e => (entryCounts ctx slots e).1).foldl min (acc.getD t (0, 0)).1 ∧
      ((es.foldl (statusStep ctx slots) acc).getD t (0, 0)).2 =
        ((es.filter fun e => e.data_type = t).map
          fun e => (entryCounts ctx slots e).2).foldl max (acc.getD t (0, 0)).2 := by
  induction es with
  | nil =>
      intro acc hlen
      exact ⟨hlen, rfl, rfl⟩
  | cons e es' ih =>
      intro acc hlen
      have hlen' : (statusStep ctx slots acc e).length = BCH_DATA_NR := by
        simp [statusStep, hlen]
      by_cases hdt : e.data_type = t
      · have hset1 : ((statusStep ctx slots acc e).getD t (0, 0)).1 =
            min (acc.getD t (0, 0)).1 (entryCounts ctx slots e).1 := by
          simp only [statusStep, hdt]
          rw [getD_set_self _ _ (by omega)]
        have hset2 : ((statusStep ctx slots acc e).getD t (0, 0)).2 =
            max (acc.getD t (0, 0)).2 (entryCounts ctx slots e).2 := by
          simp only [statusStep, hdt]
          rw [getD_set_self _ _ (by omega)]
        obtain ⟨ih1, ih2, ih3⟩ := ih (statusStep ctx slots acc e) hlen'
        refine ⟨ih1, ?_, ?_⟩
        · rw [List.foldl_cons, ih2, hset1,
            List.filter_cons_of_pos (by simp [hdt]), List.map_cons, List.foldl_cons]
        · rw [List.foldl_cons, ih3, hset2,
            List.filter_cons_of_pos (by simp [hdt]), List.map_cons, List.foldl_cons]
      · have hset : (statusStep ctx slots acc e).getD t (0, 0) = acc.getD t (0, 0) := by
          simp only [statusStep]
          exact getD_set_ne _ _ _ hdt _ _
        obtain ⟨ih1, ih2, ih3⟩ := ih (statusStep ctx slots acc e) hlen'
        refine ⟨ih1, ?_, ?_⟩
        · rw [List.foldl_cons, ih2, hset,
            List.filter_cons_of_neg (by simp [hdt])]
        · rw [List.foldl_cons, ih3, hset,
            List.filter_cons_of_neg (by simp [hdt])]

lemma foldl_min_spec (cs : List Nat) (a : Nat) :
    (cs.foldl min a = a ∨ cs.foldl min a ∈ cs) ∧
    cs.foldl min a ≤ a ∧ ∀ x ∈ cs, cs.foldl min a ≤ x := by
  induction cs generalizing a with
  | nil => exact ⟨Or.inl rfl, le_rfl, by simp⟩
  | cons c cs' ih =>
      obtain ⟨ih1, ih2, ih3⟩ := ih (min a c)
      rw [List.foldl_cons]
      refine ⟨?_, le_trans ih2 (min_le_left a c), ?_⟩
      · rcases ih1 with h | h
        · rcases le_total a c with hac | hca
          · exact Or.inl (by rw [h, min_eq_left hac])
          · exact Or.inr (by rw [h, min_eq_right hca]; exact List.mem_cons_self c cs')
        · exact Or.inr (List.mem_cons_of_mem c h)
      · intro x hx
        rcases List.mem_cons.mp hx with rfl | hx'
        · exact le_trans ih2 (min_le_right a x)
        · exact ih3 x hx'

lemma foldl_max_spec (cs : List Nat) (a : Nat) :
    (cs.foldl max a = a ∨ cs.foldl max a ∈ cs) ∧
    a ≤ cs.foldl max a ∧ ∀ x ∈ cs, x ≤ cs.foldl max a := by
  induction cs generalizing a with
  | nil => exact ⟨Or.inl rfl, le_rfl, by simp⟩
  | cons c cs' ih =>
      obtain ⟨ih1, ih2, ih3⟩ := ih (max a c)
      rw [List.foldl_cons]
      refine ⟨?_, le_trans (le_max_left a c) ih2, ?_⟩
      · rcases ih1 with h | h
        · rcases le_total a c with hac | hca
          · exact Or.inr (by rw [h, max_eq_right hac]; exact List.mem_cons_self c cs')
          · exact Or.inl (by rw [h, max_eq_left hca])
        · exact Or.inr (List.mem_cons_of_mem c h)
      · intro x hx
        rcases List.mem_cons.mp hx with rfl | hx'
        · exact le_trans (le_max_right a x) ih2
        · exact ih3 x hx'

lemma entryCounts_le_slots (ctx : StatusCtx) (slots : Nat) (e : CpuEntry) :
    (entryCounts ctx slots e).1 ≤ slots ∧ (entryCounts ctx slots e).2 ≤ slots := by
  have haux : ∀ (l : List Nat) (p : Nat × Nat),
      (l.foldl (fun p dev =>
        if dev ∈ e.devs then
          if ctx.online dev = true ∧ ctx.exclude ≠ some dev then (p.1 + 1, p.2)
          else (p.1, p.2 + 1)
        else p) p).1 ≤ p.1 + l.length ∧
      (l.foldl (fun p dev =>
        if dev ∈ e.devs then
          if ctx.online dev = true ∧ ctx.exclude ≠ some dev then (p.1 + 1, p.2)
          else (p.1, p.2 + 1)
        else p) p).2 ≤ p.2 + l.length := by
    intro l
    induction l with
    | nil => intro p; simp
    | cons dev l' ih =>
        intro p
        rw [List.foldl_cons]
        by_cases hmem : dev ∈ e.devs
        · by_cases hon : ctx.online dev = true ∧ ctx.exclude ≠ some dev
          · have := ih (p.1 + 1, p.2)
            simp only [if_pos hmem, if_pos hon]
            constructor
            · exact le_trans this.1 (by simp only [List.length_cons]; omega)
            · exact le_trans this.2 (by simp only [List.length_cons]; omega)
          · have := ih (p.1, p.2 + 1)
            simp only [if_pos hmem, if_neg hon]
            constructor
            · exact le_trans this.1 (by simp only [List.length_cons]; omega)
            · exact le_trans this.2 (by simp only [List.length_cons]; omega)
        · have := ih p
          simp only [if_neg hmem]
          constructor
          · exact le_trans this.1 (by simp only [List.length_cons]; omega)
          · exact le_trans this.2 (by simp only [List.length_cons]; omega)
  have h := haux (List.range slots) (0, 0)
  rw [List.length_range] at h
  exact ⟨by simpa using h.1, by simpa using h.2⟩

/-- C5: for every compact index, excluded device, and data type having at
least one entry, `__bch2_replicas_status` reports as `nr_online` the minimum
over that type's entries of the number of set devices that are online and
not the excluded one, and as `nr_offline` the maximum over those entries of
the number of set devices that are offline or excluded. -/
theorem c5_replicas_status_minmax (ctx : StatusCtx) (r : CpuReplicas) (t : Nat)
    (ht : t < BCH_DATA_NR) (hdev : ctx.nr_devices < UINT_MAX)
    (hne : typeOnCounts ctx r t ≠ []) :
    ((__bch2_replicas_status ctx r).getD t (0, 0)).1 ∈ typeOnCounts ctx r t ∧
    (∀ x ∈ typeOnCounts ctx r t,
       ((__bch2_replicas_status ctx r).getD t (0, 0)).1 ≤ x) ∧
    ((__bch2_replicas_status ctx r).getD t (0, 0)).2 ∈ typeOffCounts ctx r t ∧
    (∀ x ∈ typeOffCounts ctx r t,
       x ≤ ((__bch2_replicas_status ctx r).getD t (0, 0)).2) := by
  have hchar := status_fold_char ctx (statusSlots ctx r) r.entries t ht
    (List.replicate BCH_DATA_NR (UINT_MAX, 0)) (by simp)
  have hinit : ((List.replicate BCH_DATA_NR ((UINT_MAX : Nat), (0 : Nat))).getD t (0, 0)) =
      (UINT_MAX, 0) := getD_replicate _ _ ht _ _
  have hon : ((__bch2_replicas_status ctx r).getD t (0, 0)).1 =
      (typeOnCounts ctx r t).foldl min UINT_MAX := by
    have := hchar.2.1
    rw [hinit] at this
    exact this
  have hoff : ((__bch2_replicas_status ctx r).getD t (0, 0)).2 =
      (typeOffCounts ctx r t).foldl max 0 := by
    have := hchar.2.2
    rw [hinit] at this
    exact this
  have hbound : ∀ x ∈ typeOnCounts ctx r t, x < UINT_MAX := by
    intro x hx
    obtain ⟨e, -, hxe⟩ := List.mem_map.mp hx
    have := (entryCounts_le_slots ctx (statusSlots ctx r) e).1
    have hslots : statusSlots ctx r ≤ ctx.nr_devices := min_le_right _ _
    omega
  obtain ⟨hm1, -, hm3⟩ := foldl_min_spec (typeOnCounts ctx r t) UINT_MAX
  obtain ⟨hx1, -, hx3⟩ := foldl_max_spec (typeOffCounts ctx r t) 0
  have hoffne : typeOffCounts ctx r t ≠ [] := by
    intro hc
    apply hne
    unfold typeOffCounts at hc
    unfold typeOnCounts
    rw [List.map_eq_nil_iff] at hc
    rw [hc]
    rfl
  refine ⟨?_, fun x hx => hon ▸ hm3 x hx, ?_, fun x hx => hoff ▸ hx3 x hx⟩
  · rcases hm1 with h | h
    · exfalso
      obtain ⟨c, hc⟩ := List.exists_mem_of_ne_nil _ hne
      have := hm3 c hc
      have := hbound c hc
      omega
    · exact hon ▸ h
  · rcases hx1 with h | h
    · obtain ⟨c, hc⟩ := List.exists_mem_of_ne_nil _ hoffne
      have hec := hx3 c hc
      rw [h] at hec
      have : c = 0 := by omega
      rw [hoff, h, ← this]
      exact hc
    · exact hoff ▸ h

/-- C5 witness: a 3-device setup, device 2 offline, entries for data type 4
over `{0, 1}` and `{1, 2}`: the theorem at that input (statement spelled via
its defining lists, whose min is 2 and max is 1). -/
theorem c5_replicas_status_minmax_w :
    (((__bch2_replicas_status ⟨3, fun d => decide (d ≤ 1), none⟩
        ⟨2, [⟨4, {0, 1}⟩, ⟨4, {1, 2}⟩]⟩).getD 4 (0, 0)).1 ∈
      typeOnCounts ⟨3, fun d => decide (d ≤ 1), none⟩ ⟨2, [⟨4, {0, 1}⟩, ⟨4, {1, 2}⟩]⟩ 4) ∧
    (∀ x ∈ typeOnCounts ⟨3, fun d => decide (d ≤ 1), none⟩
        ⟨2, [⟨4, {0, 1}⟩, ⟨4, {1, 2}⟩]⟩ 4,
      ((__bch2_replicas_status ⟨3, fun d => decide (d ≤ 1), none⟩
        ⟨2, [⟨4, {0, 1}⟩, ⟨4, {1, 2}⟩]⟩).getD 4 (0, 0)).1 ≤ x) ∧
    (((__bch2_replicas_status ⟨3, fun d => decide (d ≤ 1), none⟩
        ⟨2, [⟨4, {0, 1}⟩, ⟨4, {1, 2}⟩]⟩).getD 4 (0, 0)).2 ∈
      typeOffCounts ⟨3, fun d => decide (d ≤ 1), none⟩ ⟨2, [⟨4, {0, 1}⟩, ⟨4, {1, 2}⟩]⟩ 4) ∧
    (∀ x ∈ typeOffCounts ⟨3, fun d => decide (d ≤ 1), none⟩
        ⟨2, [⟨4, {0, 1}⟩, ⟨4, {1, 2}⟩]⟩ 4,
      x ≤ ((__bch2_replicas_status ⟨3, fun d => decide (d ≤ 1), none⟩
        ⟨2, [⟨4, {0, 1}⟩, ⟨4, {1, 2}⟩]⟩).getD 4 (0, 0)).2) :=
  c5_replicas_status_minmax ⟨3, fun d => decide (d ≤ 1), none⟩
    ⟨2, [⟨4, {0, 1}⟩, ⟨4, {1, 2}⟩]⟩ 4 (by decide) (by decide) (by decide)

/-- C10: for every index and every data type with no entry in it, the
`(UINT_MAX, 0)` initialization survives the status fold, so that type's
`nr_online` stays `UINT_MAX` (for any excluded device); consequently
`bch2_replicas_online` returns `UINT_MAX`, not 0, whenever no entries of
the kinds the query consults exist — journal and btree for a metadata
query, user for a data query. -/
theorem c10_replicas_status_empty (ctx : StatusCtx) (r : CpuReplicas) :
    (∀ t, t < BCH_DATA_NR → (r.entries.filter fun e => e.data_type = t) = [] →
       ((__bch2_replicas_status ctx r).getD t (0, 0)).1 = UINT_MAX) ∧
    ((r.entries.filter fun e => e.data_type = BCH_DATA_JOURNAL) = [] →
     (r.entries.filter fun e => e.data_type = BCH_DATA_BTREE) = [] →
     bch2_replicas_online ctx r true = UINT_MAX) ∧
    ((r.entries.filter fun e => e.data_type = BCH_DATA_USER) = [] →
     bch2_replicas_online ctx r false = UINT_MAX) := by
  have hgen : ∀ (ctx' : StatusCtx) (t : Nat), t < BCH_DATA_NR →
      (r.entries.filter fun e => e.data_type = t) = [] →
      ((__bch2_replicas_status ctx' r).getD t (0, 0)).1 = UINT_MAX := by
    intro ctx' t ht hfil
    have hchar := status_fold_char ctx' (statusSlots ctx' r) r.entries t ht
      (List.replicate BCH_DATA_NR (UINT_MAX, 0)) (by simp)
    have hinit : ((List.replicate BCH_DATA_NR ((UINT_MAX : Nat), (0 : Nat))).getD t (0, 0)) =
        (UINT_MAX, 0) := getD_replicate _ _ ht _ _
    have h1 := hchar.2.1
    rw [hinit, hfil] at h1
    exact h1
  refine ⟨hgen ctx, ?_, ?_⟩
  · intro hj hb
    unfold bch2_replicas_online bch2_replicas_status
    rw [if_pos rfl]
    rw [hgen { ctx with exclude := none } BCH_DATA_JOURNAL (by decide) hj,
      hgen { ctx with exclude := none } BCH_DATA_BTREE (by decide) hb]
    exact min_self _
  · intro hu
    unfold bch2_replicas_online bch2_replicas_status
    rw [if_neg (by simp)]
    exact hgen { ctx with exclude := none } BCH_DATA_USER (by decide) hu

/-- C10 witness: an index holding a user entry and a superblock entry but no
journal or btree entries, by the theorem at that input: the journal type's
`nr_online` stays `UINT_MAX` and the metadata query reports `UINT_MAX`, even
though user entries exist. -/
theorem c10_replicas_status_empty_w :
    ((__bch2_replicas_status ⟨1, fun _ => true, none⟩
        ⟨2, [⟨4, {0}⟩, ⟨1, {0}⟩]⟩).getD 2 (0, 0)).1 = UINT_MAX ∧
    bch2_replicas_online ⟨1, fun _ => true, none⟩
      ⟨2, [⟨4, {0}⟩, ⟨1, {0}⟩]⟩ true = UINT_MAX :=
  ⟨(c10_replicas_status_empty ⟨1, fun _ => true, none⟩
      ⟨2, [⟨4, {0}⟩, ⟨1, {0}⟩]⟩).1 2 (by decide) (by decide),
   (c10_replicas_status_empty ⟨1, fun _ => true, none⟩
      ⟨2, [⟨4, {0}⟩, ⟨1, {0}⟩]⟩).2.1 (by decide) (by decide)⟩

end Rep

/-! ### Superblock validator (`bch2_sb_validate` and subsidiaries) and the
write path (`bch2_write_super`).

The validator consumes decoded superblocks: the byte layouts of
`struct bch_sb`, `struct bch_member` and the field payloads live in headers
absent from the source tree, so (modelled from the spec) a superblock is a
structure of decoded header quantities — flag-packed accessors such as
`BCH_SB_META_REPLICAS_WANT` become components — and each directory field of
a known type carries its decoded content. -/

namespace Val

open FieldDir (BCH_SB_FIELD_journal BCH_SB_FIELD_members BCH_SB_FIELD_replicas
  BCH_SB_FIELD_NR)

def PAGE_SECTORS : Nat := 8

/-- Modelled from the spec: `BCH_SB_MEMBERS_MAX` (missing format header). -/
def BCH_SB_MEMBERS_MAX : Nat := 64

/-- Modelled from the spec: `BTREE_NODE_SIZE_MAX` in sectors (missing format
header). -/
def BTREE_NODE_SIZE_MAX : Nat := 512

def NSEC_PER_SEC : Nat := 1000000000

def LONG_MAX : Nat := 2 ^ 63 - 1

/-- Kernel `is_power_of_2`: `n != 0 && (n & (n - 1)) == 0`. -/
def is_power_of_2 (n : Nat) : Bool := n != 0 && (n &&& (n - 1)) == 0

/-- A decoded member-table entry (`struct bch_member` read through
`bch2_mi_to_cpu`).  `present` is `bch2_dev_exists` for the slot (member uuid
nonzero). -/
structure Member where
  present : Bool
  nbuckets : Nat
  first_bucket : Nat
  bucket_size : Nat
deriving Repr, DecidableEq, Inhabited

/-- A decoded directory field: known tags carry their decoded payloads (a
field decodes according to its type tag), `other` covers remaining tags.  A
journal field of `u64s` words holds `u64s - 1` buckets
(`bch2_nr_journal_buckets`). -/
inductive VField where
  | journal (buckets : List Nat)
  | members (u64s : Nat) (entries : List Member)
  | replicas (entries : List Rep.RepEntry)
  | other (type : Nat) (u64s : Nat)
deriving Repr, DecidableEq

def VField.type : VField → Nat
  | .journal _ => BCH_SB_FIELD_journal
  | .members _ _ => BCH_SB_FIELD_members
  | .replicas _ => BCH_SB_FIELD_replicas
  | .other t _ => t

/-- Declared total word count of a field; for replicas the packed byte size
rounded up to words (`DIV_ROUND_UP`). -/
def VField.u64s : VField → Nat
  | .journal bs => bs.length + 1
  | .members u _ => u
  | .replicas es => 1 + (es.foldl (fun a e => a + 2 + e.devs.length) 0 + 7) / 8
  | .other _ u => u

/-- A decoded superblock for the validation and write paths. -/
structure VSb where
  magic : Nat
  version : Nat
  seq : Nat
  uuid : Nat
  user_uuid : Nat
  label : Nat
  block_size : Nat
  dev_idx : Nat
  nr_devices : Nat
  u64s : Nat
  time_base_lo : Nat
  time_base_hi : Nat
  time_precision : Nat
  initialized : Bool
  meta_replicas_want : Nat
  meta_replicas_req : Nat
  data_replicas_want : Nat
  data_replicas_req : Nat
  btree_node_size : Nat
  gc_reserve : Nat
  flags_rest : Nat
  features : Nat
  compat : Nat
  layout : Layout
  fields : List VField
deriving Repr, DecidableEq

/-- `bch2_sb_get_journal`: the first journal-tagged field's bucket list. -/
def bch2_sb_get_journal (sb : VSb) : Option (List Nat) :=
  match sb.fields.find? (fun f => f.type == BCH_SB_FIELD_journal) with
  | some (.journal bs) => some bs
  | _ => none

/-- `bch2_sb_get_members`: declared size and decoded slots of the first
members-tagged field. -/
def bch2_sb_get_members (sb : VSb) : Option (Nat × List Member) :=
  match sb.fields.find? (fun f => f.type == BCH_SB_FIELD_members) with
  | some (.members u es) => some (u, es)
  | _ => none

/-- `bch2_sb_get_replicas`. -/
def bch2_sb_get_replicas (sb : VSb) : Option (List Rep.RepEntry) :=
  match sb.fields.find? (fun f => f.type == BCH_SB_FIELD_replicas) with
  | some (.replicas es) => some es
  | _ => none

/-- `bch2_dev_exists` for a device index on this superblock. -/
def bch2_dev_exists (sb : VSb) (i : Nat) : Bool :=
  match bch2_sb_get_members sb with
  | some (_, es) => (es.getD i default).present
  | none => false

/-- The kernel `sort` of the bucket-array copy (lib/sort, not in src),
modelled as an ascending sort. -/
def bucketSort (l : List Nat) : List Nat := l.insertionSort (· ≤ ·)

/-- The adjacent-duplicate scan of the sorted bucket array
(super-io.c:273). -/
def adjacentDup : List Nat → Bool
  | a :: b :: rest => a == b || adjacentDup (b :: rest)
  | _ => false

/-- Embedding of `bch2_sb_validate_journal` (super-io.c:234): an absent
journal field or an empty bucket list is accepted; otherwise the checks run
against a sorted copy of the list (`kmalloc` modelled as succeeding). -/
def bch2_sb_validate_journal (sb : VSb) (mi : Member) : Option String :=
  match bch2_sb_get_journal sb with
  | none => none
  | some buckets =>
      if buckets.length = 0 then none
      else if (bucketSort buckets).headD 0 = 0 then some "journal bucket at sector 0"
      else if (bucketSort buckets).headD 0 < mi.first_bucket then
        some "journal bucket before first bucket"
      else if mi.nbuckets ≤ (bucketSort buckets).getLastD 0 then
        some "journal bucket past end of device"
      else if adjacentDup (bucketSort buckets) then some "duplicate journal buckets"
      else none

/-- Embedding of `bch2_sb_validate_members` (super-io.c:283); the bound
check `(mi->members + sb->nr_devices) > vstruct_end(&mi->field)` is the
requirement that the decodable slot list covers `nr_devices` entries. -/
def bch2_sb_validate_members (sb : VSb) : Option String :=
  match bch2_sb_get_members sb with
  | none => some "Invalid superblock: member info area missing"
  | some (_, es) =>
      if es.length < sb.nr_devices then some "Invalid superblock: bad member info"
      else if (List.range sb.nr_devices).any (fun i =>
          bch2_dev_exists sb i &&
            decide ((es.getD i default).bucket_size < sb.btree_node_size)) then
        some "bucket size smaller than btree node size"
      else none

/-- The per-entry checks of `bch2_sb_validate_replicas` (super-io.c:1103). -/
def repEntryErr (sb : VSb) (e : Rep.RepEntry) : Option String :=
  if BCH_DATA_NR ≤ e.data_type then some "invalid replicas entry: invalid data type"
  else if BCH_REPLICAS_MAX ≤ e.devs.length then
    some "invalid replicas entry: too many devices"
  else if e.devs.any (fun d => ! bch2_dev_exists sb d) then
    some "invalid replicas entry: invalid device"
  else none

/-- The adjacent-duplicate scan over the sorted compact entries
(super-io.c:1128). -/
def adjacentDupEntries : List Rep.CpuEntry → Bool
  | a :: b :: rest => a == b || adjacentDupEntries (b :: rest)
  | _ => false

/-- Embedding of `bch2_sb_validate_replicas` (super-io.c:1089): per-entry
checks in order, then conversion to compact form, `sort_cmp_size` under the
byte order, and duplicate detection (allocation modelled as succeeding). -/
def bch2_sb_validate_replicas (sb : VSb) : Option String :=
  match bch2_sb_get_replicas sb with
  | none => none
  | some es =>
      match es.findSome? (repEntryErr sb) with
      | some err => some err
      | none =>
          if adjacentDupEntries
              (Rep.replicasSort (Rep.__bch2_sb_replicas_to_cpu_replicas es).entries) then
            some "duplicate replicas entry"
          else none

/-- The `vstruct_for_each` bounds-and-type scan of `bch2_sb_validate`
(super-io.c:382): every field nonempty, within the declared directory size,
and of a known type tag. -/
def vstructWalk (total : Nat) : Nat → List VField → Option String
  | _, [] => none
  | off, f :: rest =>
      if f.u64s = 0 then some "Invalid superblock: invalid optional field"
      else if total < off + f.u64s then some "Invalid superblock: invalid optional field"
      else if BCH_SB_FIELD_NR ≤ f.type then
        some "Invalid superblock: unknown optional field type"
      else vstructWalk total (off + f.u64s) rest

/-- Embedding of `bch2_sb_validate` (super-io.c:308); `capacity` stands for
`get_capacity(disk_sb->bdev->bd_disk)` in sectors.  u64 subtraction and
multiplication keep their `% 2 ^ 64` wrap. -/
def bch2_sb_validate (sb : VSb) (capacity : Nat) : Option String :=
  if sb.version ≠ BCACHE_SB_VERSION_CDEV_V4 then some "Unsupported superblock version"
  else if sb.initialized = true ∧ sb.version ≠ BCACHE_SB_VERSION_CDEV_V4 then
    some "Unsupported superblock version"
  else if is_power_of_2 sb.block_size = false ∨ PAGE_SECTORS < sb.block_size then
    some "Bad block size"
  else if sb.user_uuid = 0 then some "Bad user UUID"
  else if sb.uuid = 0 then some "Bad internal UUID"
  else if sb.nr_devices = 0 ∨ sb.nr_devices ≤ sb.dev_idx ∨
      BCH_SB_MEMBERS_MAX < sb.nr_devices then some "Bad cache device number in set"
  else if sb.meta_replicas_want = 0 ∨ BCH_REPLICAS_MAX ≤ sb.meta_replicas_want then
    some "Invalid number of metadata replicas"
  else if sb.meta_replicas_req = 0 ∨ BCH_REPLICAS_MAX ≤ sb.meta_replicas_req then
    some "Invalid number of metadata replicas"
  else if sb.data_replicas_want = 0 ∨ BCH_REPLICAS_MAX ≤ sb.data_replicas_want then
    some "Invalid number of data replicas"
  else if sb.data_replicas_req = 0 ∨ BCH_REPLICAS_MAX ≤ sb.data_replicas_req then
    some "Invalid number of metadata replicas"
  else if sb.btree_node_size = 0 then some "Btree node size not set"
  else if is_power_of_2 sb.btree_node_size = false then
    some "Btree node size not a power of two"
  else if BTREE_NODE_SIZE_MAX < sb.btree_node_size then some "Btree node size too large"
  else if sb.gc_reserve < 5 then some "gc reserve percentage too small"
  else if sb.time_precision = 0 ∨ NSEC_PER_SEC < sb.time_precision then
    some "invalid time precision"
  else match validate_sb_layout sb.layout with
  | some e => some e
  | none =>
    match vstructWalk sb.u64s 0 sb.fields with
    | some e => some e
    | none =>
      match bch2_sb_validate_members sb with
      | some e => some e
      | none =>
        match bch2_sb_get_members sb with
        | none => some "Invalid superblock: member info area missing"
        | some (_, es) =>
          if LONG_MAX < (es.getD sb.dev_idx default).nbuckets then some "Too many buckets"
          else if ((es.getD sb.dev_idx default).nbuckets + 2 ^ 64 -
              (es.getD sb.dev_idx default).first_bucket) % 2 ^ 64 < 1024 then
            some "Not enough buckets"
          else if is_power_of_2 (es.getD sb.dev_idx default).bucket_size = false ∨
              (es.getD sb.dev_idx default).bucket_size < PAGE_SECTORS ∨
              (es.getD sb.dev_idx default).bucket_size < sb.block_size then
            some "Bad bucket size"
          else if capacity < ((es.getD sb.dev_idx default).bucket_size *
              (es.getD sb.dev_idx default).nbuckets) % 2 ^ 64 then
            some "Invalid superblock: device too small"
          else match bch2_sb_validate_journal sb (es.getD sb.dev_idx default) with
          | some e => some e
          | none => bch2_sb_validate_replicas sb

lemma sorted_headD_le (s : List Nat) (hs : s.Sorted (· ≤ ·)) (x : Nat) (hx : x ∈ s) :
    s.headD 0 ≤ x := by
  cases s with
  | nil => cases hx
  | cons a t =>
      rcases List.mem_cons.mp hx with rfl | hxt
      · simp
      · exact (List.sorted_cons.mp hs).1 x hxt

lemma sorted_le_getLastD :
    ∀ (s : List Nat), s.Sorted (· ≤ ·) → ∀ x ∈ s, ∀ d, x ≤ s.getLastD d := by
  intro s
  induction s with
  | nil =>
      intro _ x hx
      cases hx
  | cons a t ih =>
      intro hs x hx d
      rw [List.getLastD_cons]
      rcases List.mem_cons.mp hx with rfl | hxt
      · cases t with
        | nil => simp [List.getLastD]
        | cons b t' =>
            have hab : x ≤ b := (List.sorted_cons.mp hs).1 b (by simp)
            exact le_trans hab (ih (List.sorted_cons.mp hs).2 b (by simp) x)
      · exact ih (List.sorted_cons.mp hs).2 x hxt a

lemma headD_mem (s : List Nat) (h : s ≠ []) (d : Nat) : s.headD d ∈ s := by
  cases s with
  | nil => exact absurd rfl h
  | cons a t => simp

lemma getLastD_mem : ∀ (s : List Nat), s ≠ [] → ∀ d, s.getLastD d ∈ s := by
  intro s
  induction s with
  | nil => intro h; exact absurd rfl h
  | cons a t ih =>
      intro _ d
      rw [List.getLastD_cons]
      cases t with
      | nil => simp [List.getLastD]
      | cons b t' => exact List.mem_cons_of_mem a (ih (by simp) a)

lemma adjacentDup_eq_false_iff (s : List Nat) (hs : s.Sorted (· ≤ ·)) :
    adjacentDup s = false ↔ s.Nodup := by
  induction s with
  | nil => simp [adjacentDup]
  | cons a t ih =>
      cases t with
      | nil => simp [adjacentDup]
      | cons b t' =>
          have hab : a ≤ b := (List.sorted_cons.mp hs).1 b (by simp)
          have hst : (b :: t').Sorted (· ≤ ·) := (List.sorted_cons.mp hs).2
          have hmem : a ∈ b :: t' ↔ a = b := by
            constructor
            · intro h
              rcases List.mem_cons.mp h with h' | h'
              · exact h'
              · have hba : b ≤ a := (List.sorted_cons.mp hst).1 a h'
                omega
            · intro h
              rw [h]
              exact List.mem_cons_self b t'
          rw [show adjacentDup (a :: b :: t') = (a == b || adjacentDup (b :: t')) from rfl,
            Bool.or_eq_false_iff, beq_eq_false_iff_ne, ih hst]
          simp only [List.nodup_cons, hmem]

/-- C4 counterexample: a superblock whose journal field holds an empty
bucket list passes journal validation, contradicting the claimed non-empty
requirement; and a journal field whose on-disk bucket list is not sorted
(`[5, 3]`) also passes, since the validator only checks a sorted copy. -/
theorem c4_journal_validate_cex :
    bch2_sb_get_journal
      { magic := 0, version := 6, seq := 0, uuid := 1, user_uuid := 1, label := 0,
        block_size := 8, dev_idx := 0, nr_devices := 1, u64s := 1,
        time_base_lo := 0, time_base_hi := 0, time_precision := 1,
        initialized := true, meta_replicas_want := 1, meta_replicas_req := 1,
        data_replicas_want := 1, data_replicas_req := 1, btree_node_size := 8,
        gc_reserve := 8, flags_rest := 0, features := 0, compat := 0,
        layout := ⟨BCACHE_MAGIC, 0, 3, 1, [8]⟩, fields := [.journal []] } = some [] ∧
    bch2_sb_validate_journal
      { magic := 0, version := 6, seq := 0, uuid := 1, user_uuid := 1, label := 0,
        block_size := 8, dev_idx := 0, nr_devices := 1, u64s := 1,
        time_base_lo := 0, time_base_hi := 0, time_precision := 1,
        initialized := true, meta_replicas_want := 1, meta_replicas_req := 1,
        data_replicas_want := 1, data_replicas_req := 1, btree_node_size := 8,
        gc_reserve := 8, flags_rest := 0, features := 0, compat := 0,
        layout := ⟨BCACHE_MAGIC, 0, 3, 1, [8]⟩, fields := [.journal []] }
      ⟨true, 2000, 1, 8⟩ = none ∧
    bucketSort [5, 3] ≠ [5, 3] ∧
    bch2_sb_validate_journal
      { magic := 0, version := 6, seq := 0, uuid := 1, user_uuid := 1, label := 0,
        block_size := 8, dev_idx := 0, nr_devices := 1, u64s := 3,
        time_base_lo := 0, time_base_hi := 0, time_precision := 1,
        initialized := true, meta_replicas_want := 1, meta_replicas_req := 1,
        data_replicas_want := 1, data_replicas_req := 1, btree_node_size := 8,
        gc_reserve := 8, flags_rest := 0, features := 0, compat := 0,
        layout := ⟨BCACHE_MAGIC, 0, 3, 1, [8]⟩, fields := [.journal [5, 3]] }
      ⟨true, 2000, 1, 8⟩ = none := by
  exact ⟨rfl, rfl, by decide, by decide⟩

/-- C4 amended: for a superblock whose journal field is present, journal
validation accepts exactly when the bucket list is empty, or contains no
bucket at sector 0, every bucket lies in `[first_bucket, nbuckets)` of the
local member, and there are no duplicates; the on-disk order is irrelevant
(the validator sorts a copy), and each rejection carries its specific error
string, chosen by the first failing check over the sorted copy: a bucket at
sector 0 first, then a bucket below `first_bucket`, then a bucket past the
end of the device, then duplicates. -/
theorem c4_journal_validate_iff (sb : VSb) (mi : Member) (buckets : List Nat)
    (hj : bch2_sb_get_journal sb = some buckets) :
    (bch2_sb_validate_journal sb mi = none ↔
      (buckets = [] ∨
       ((0 : Nat) ∉ buckets ∧ (∀ x ∈ buckets, mi.first_bucket ≤ x ∧ x < mi.nbuckets) ∧
        buckets.Nodup))) ∧
    (buckets ≠ [] → (0 : Nat) ∈ buckets →
       bch2_sb_validate_journal sb mi = some "journal bucket at sector 0") ∧
    (buckets ≠ [] → (0 : Nat) ∉ buckets → (∃ x ∈ buckets, x < mi.first_bucket) →
       bch2_sb_validate_journal sb mi = some "journal bucket before first bucket") ∧
    (buckets ≠ [] → (0 : Nat) ∉ buckets → (∀ x ∈ buckets, mi.first_bucket ≤ x) →
       (∃ x ∈ buckets, mi.nbuckets ≤ x) →
       bch2_sb_validate_journal sb mi = some "journal bucket past end of device") ∧
    (buckets ≠ [] → (0 : Nat) ∉ buckets →
       (∀ x ∈ buckets, mi.first_bucket ≤ x ∧ x < mi.nbuckets) → ¬ buckets.Nodup →
       bch2_sb_validate_journal sb mi = some "duplicate journal buckets") := by
  have hred : bch2_sb_validate_journal sb mi =
      (if buckets.length = 0 then none
       else if (bucketSort buckets).headD 0 = 0 then some "journal bucket at sector 0"
       else if (bucketSort buckets).headD 0 < mi.first_bucket then
         some "journal bucket before first bucket"
       else if mi.nbuckets ≤ (bucketSort buckets).getLastD 0 then
         some "journal bucket past end of device"
       else if adjacentDup (bucketSort buckets) then some "duplicate journal buckets"
       else none) := by
    unfold bch2_sb_validate_journal
    rw [hj]
  have hsp : (bucketSort buckets).Perm buckets := List.perm_insertionSort _ _
  have hss : (bucketSort buckets).Sorted (· ≤ ·) := List.sorted_insertionSort _ _
  refine ⟨?_, ?_, ?_, ?_, ?_⟩
  · rw [hred]
    by_cases hempty : buckets.length = 0
    · rw [if_pos hempty]
      simp [List.length_eq_zero.mp hempty]
    · rw [if_neg hempty]
      have hbne : buckets ≠ [] := fun h => hempty (by rw [h]; rfl)
      have hsne : bucketSort buckets ≠ [] := fun h => hbne ((h ▸ hsp).symm.eq_nil)
      have hhead : (bucketSort buckets).headD 0 ∈ buckets :=
        hsp.mem_iff.mp (headD_mem _ hsne 0)
      have hlast : (bucketSort buckets).getLastD 0 ∈ buckets :=
        hsp.mem_iff.mp (getLastD_mem _ hsne 0)
      constructor
      · intro hnone
        by_cases h1 : (bucketSort buckets).headD 0 = 0
        · rw [if_pos h1] at hnone
          cases hnone
        rw [if_neg h1] at hnone
        by_cases h2 : (bucketSort buckets).headD 0 < mi.first_bucket
        · rw [if_pos h2] at hnone
          cases hnone
        rw [if_neg h2] at hnone
        by_cases h3 : mi.nbuckets ≤ (bucketSort buckets).getLastD 0
        · rw [if_pos h3] at hnone
          cases hnone
        rw [if_neg h3] at hnone
        by_cases h4 : adjacentDup (bucketSort buckets) = true
        · rw [if_pos h4] at hnone
          cases hnone
        refine Or.inr ⟨?_, ?_, ?_⟩
        · intro h0
          have hle : (bucketSort buckets).headD 0 ≤ 0 :=
            sorted_headD_le _ hss 0 (hsp.mem_iff.mpr h0)
          omega
        · intro x hx
          have hxs : x ∈ bucketSort buckets := hsp.mem_iff.mpr hx
          exact ⟨le_trans (le_of_not_lt h2) (sorted_headD_le _ hss x hxs),
            lt_of_le_of_lt (sorted_le_getLastD _ hss x hxs 0) (not_le.mp h3)⟩
        · exact hsp.nodup_iff.mp
            ((adjacentDup_eq_false_iff _ hss).mp (Bool.eq_false_iff.mpr h4))
      · rintro (rfl | ⟨h0, hrange, hnd⟩)
        · exact absurd rfl hbne
        · have h1 : ¬ (bucketSort buckets).headD 0 = 0 := fun h => h0 (h ▸ hhead)
          have h2 : ¬ (bucketSort buckets).headD 0 < mi.first_bucket :=
            not_lt.mpr (hrange _ hhead).1
          have h3 : ¬ mi.nbuckets ≤ (bucketSort buckets).getLastD 0 :=
            not_le.mpr (hrange _ hlast).2
          have h4 : adjacentDup (bucketSort buckets) = false :=
            (adjacentDup_eq_false_iff _ hss).mpr (hsp.nodup_iff.mpr hnd)
          rw [if_neg h1, if_neg h2, if_neg h3, if_neg (by simp [h4])]
  · intro hbne h0
    have hlen : ¬ buckets.length = 0 := fun h => hbne (List.length_eq_zero.mp h)
    have hh0 : (bucketSort buckets).headD 0 = 0 :=
      Nat.le_zero.mp (sorted_headD_le _ hss 0 (hsp.mem_iff.mpr h0))
    rw [hred, if_neg hlen, if_pos hh0]
  · intro hbne h0 hex
    obtain ⟨x, hx, hxlt⟩ := hex
    have hlen : ¬ buckets.length = 0 := fun h => hbne (List.length_eq_zero.mp h)
    have hsne : bucketSort buckets ≠ [] := fun h => hbne ((h ▸ hsp).symm.eq_nil)
    have hhead : (bucketSort buckets).headD 0 ∈ buckets :=
      hsp.mem_iff.mp (headD_mem _ hsne 0)
    have h1 : ¬ (bucketSort buckets).headD 0 = 0 := fun h => h0 (h ▸ hhead)
    have h2 : (bucketSort buckets).headD 0 < mi.first_bucket :=
      lt_of_le_of_lt (sorted_headD_le _ hss x (hsp.mem_iff.mpr hx)) hxlt
    rw [hred, if_neg hlen, if_neg h1, if_pos h2]
  · intro hbne h0 hge hex
    obtain ⟨x, hx, hxge⟩ := hex
    have hlen : ¬ buckets.length = 0 := fun h => hbne (List.length_eq_zero.mp h)
    have hsne : bucketSort buckets ≠ [] := fun h => hbne ((h ▸ hsp).symm.eq_nil)
    have hhead : (bucketSort buckets).headD 0 ∈ buckets :=
      hsp.mem_iff.mp (headD_mem _ hsne 0)
    have h1 : ¬ (bucketSort buckets).headD 0 = 0 := fun h => h0 (h ▸ hhead)
    have h2 : ¬ (bucketSort buckets).headD 0 < mi.first_bucket :=
      not_lt.mpr (hge _ hhead)
    have h3 : mi.nbuckets ≤ (bucketSort buckets).getLastD 0 :=
      le_trans hxge (sorted_le_getLastD _ hss x (hsp.mem_iff.mpr hx) 0)
    rw [hred, if_neg hlen, if_neg h1, if_neg h2, if_pos h3]
  · intro hbne h0 hrange hnd
    have hlen : ¬ buckets.length = 0 := fun h => hbne (List.length_eq_zero.mp h)
    have hsne : bucketSort buckets ≠ [] := fun h => hbne ((h ▸ hsp).symm.eq_nil)
    have hhead : (bucketSort buckets).headD 0 ∈ buckets :=
      hsp.mem_iff.mp (headD_mem _ hsne 0)
    have hlast : (bucketSort buckets).getLastD 0 ∈ buckets :=
      hsp.mem_iff.mp (getLastD_mem _ hsne 0)
    have h1 : ¬ (bucketSort buckets).headD 0 = 0 := fun h => h0 (h ▸ hhead)
    have h2 : ¬ (bucketSort buckets).headD 0 < mi.first_bucket :=
      not_lt.mpr (hrange _ hhead).1
    have h3 : ¬ mi.nbuckets ≤ (bucketSort buckets).getLastD 0 :=
      not_le.mpr (hrange _ hlast).2
    have h4 : adjacentDup (bucketSort buckets) = true := by
      cases hcase : adjacentDup (bucketSort buckets) with
      | false =>
          exact absurd (hsp.nodup_iff.mp ((adjacentDup_eq_false_iff _ hss).mp hcase)) hnd
      | true => rfl
    rw [hred, if_neg hlen, if_neg h1, if_neg h2, if_neg h3, if_pos h4]

/-- C4 witness: a present, in-range, duplicate-free bucket list `[3, 5]` is
accepted, and a duplicated list `[3, 3]` is rejected with the duplicate
error string, both by the amended theorem at those inputs. -/
theorem c4_journal_validate_iff_w :
    bch2_sb_validate_journal
      { magic := 0, version := 6, seq := 0, uuid := 1, user_uuid := 1, label := 0,
        block_size := 8, dev_idx := 0, nr_devices := 1, u64s := 3,
        time_base_lo := 0, time_base_hi := 0, time_precision := 1,
        initialized := true, meta_replicas_want := 1, meta_replicas_req := 1,
        data_replicas_want := 1, data_replicas_req := 1, btree_node_size := 8,
        gc_reserve := 8, flags_rest := 0, features := 0, compat := 0,
        layout := ⟨BCACHE_MAGIC, 0, 3, 1, [8]⟩, fields := [.journal [3, 5]] }
      ⟨true, 2000, 1, 8⟩ = none ∧
    bch2_sb_validate_journal
      { magic := 0, version := 6, seq := 0, uuid := 1, user_uuid := 1, label := 0,
        block_size := 8, dev_idx := 0, nr_devices := 1, u64s := 3,
        time_base_lo := 0, time_base_hi := 0, time_precision := 1,
        initialized := true, meta_replicas_want := 1, meta_replicas_req := 1,
        data_replicas_want := 1, data_replicas_req := 1, btree_node_size := 8,
        gc_reserve := 8, flags_rest := 0, features := 0, compat := 0,
        layout := ⟨BCACHE_MAGIC, 0, 3, 1, [8]⟩, fields := [.journal [3, 3]] }
      ⟨true, 2000, 1, 8⟩ = some "duplicate journal buckets" :=
  ⟨(c4_journal_validate_iff
      { magic := 0, version := 6, seq := 0, uuid := 1, user_uuid := 1, label := 0,
        block_size := 8, dev_idx := 0, nr_devices := 1, u64s := 3,
        time_base_lo := 0, time_base_hi := 0, time_precision := 1,
        initialized := true, meta_replicas_want := 1, meta_replicas_req := 1,
        data_replicas_want := 1, data_replicas_req := 1, btree_node_size := 8,
        gc_reserve := 8, flags_rest := 0, features := 0, compat := 0,
        layout := ⟨BCACHE_MAGIC, 0, 3, 1, [8]⟩, fields := [.journal [3, 5]] }
      ⟨true, 2000, 1, 8⟩ [3, 5] rfl).1.mpr (Or.inr (by decide)),
   (c4_journal_validate_iff
      { magic := 0, version := 6, seq := 0, uuid := 1, user_uuid := 1, label := 0,
        block_size := 8, dev_idx := 0, nr_devices := 1, u64s := 3,
        time_base_lo := 0, time_base_hi := 0, time_precision := 1,
        initialized := true, meta_replicas_want := 1, meta_replicas_req := 1,
        data_replicas_want := 1, data_replicas_req := 1, btree_node_size := 8,
        gc_reserve := 8, flags_rest := 0, features := 0, compat := 0,
        layout := ⟨BCACHE_MAGIC, 0, 3, 1, [8]⟩, fields := [.journal [3, 3]] }
      ⟨true, 2000, 1, 8⟩ [3, 3] rfl).2.2.2.2 (by decide) (by decide) (by decide)
        (by decide)⟩

/-! ### Write path (`bch2_write_super`, super-io.c:741) -/

/-- Per-device state seen by the write path: online flag (the collaborator's
`for_each_online_member`), the device's superblock buffer, and its disk
capacity in sectors. -/
structure WDev where
  online : Bool
  sb : VSb
  capacity : Nat
deriving Repr, DecidableEq

/-- Filesystem state for the write path: the authoritative image, member
devices, the `nochanges` option, the `BCH_FS_ERROR` flag, and whether
`bch2_fs_inconsistent` has been raised. -/
structure FS where
  disk_sb : VSb
  devs : List WDev
  nochanges : Bool
  fs_error : Bool
  inconsistent : Bool
deriving Repr, DecidableEq

/-- One issued superblock write: target device index and sector offset. -/
structure SbWrite where
  dev : Nat
  offset : Nat
deriving Repr, DecidableEq

/-- One iteration of the `__copy_super` field loop on decoded fields:
replace the first destination field of the source field's type, or
append. -/
def copyOneVField (fs : List VField) (f : VField) : List VField :=
  match fs with
  | [] => [f]
  | g :: rest => if g.type = f.type then f :: rest else g :: copyOneVField rest f

/-- Total declared word count of a decoded field directory. -/
def vfieldsU64s (fs : List VField) : Nat := (fs.map VField.u64s).sum

/-- Embedding of `__copy_super` (super-io.c:475) on decoded superblocks:
shared header words and flag-derived values are copied from the source, the
device-local words (magic, `dev_idx`, layout) keep the destination's values,
every non-journal source field is copied, and the declared directory size
follows the field changes (`le32_add_cpu(&sb->u64s, ...)`). -/
def copySuperV (dst src : VSb) : VSb :=
  { src with
    magic := dst.magic,
    dev_idx := dst.dev_idx,
    layout := dst.layout,
    u64s := dst.u64s +
      vfieldsU64s ((src.fields.filter fun f => f.type ≠ BCH_SB_FIELD_journal).foldl
        copyOneVField dst.fields) - vfieldsU64s dst.fields,
    fields := (src.fields.filter fun f => f.type ≠ BCH_SB_FIELD_journal).foldl
      copyOneVField dst.fields }

/-- Embedding of `bch2_sb_from_fs` (super-io.c:532) as the write path uses
it — its return value is ignored there (super-io.c:756), so a device whose
buffer cannot grow within its per-copy budget keeps its previous superblock;
otherwise the authoritative image is copied over, keeping the device's own
journal field. -/
def sb_from_fs (src : VSb) (d : WDev) : WDev :=
  if 512 <<< d.sb.layout.sb_max_size_bits <
      vstructBytesSb (src.u64s +
        (match bch2_sb_get_journal d.sb with
         | some bs => bs.length + 1
         | none => 0)) then d
  else { d with sb := copySuperV d.sb src }

/-- The authoritative image after the write path's
`le64_add_cpu(&c->disk_sb->seq, 1)`. -/
def propagatedDisk (c : FS) : VSb :=
  { c.disk_sb with seq := (c.disk_sb.seq + 1) % 2 ^ 64 }

/-- The member devices after the propagation loop (super-io.c:755). -/
def propagatedDevs (c : FS) : List WDev :=
  c.devs.map fun d => if d.online = true then sb_from_fs (propagatedDisk c) d else d

/-- The number of write waves: one per backup slot up to the largest online
device's superblock count (the do-while loop of super-io.c:770 stops at the
first wave in which no device wrote). -/
def maxNrSuperblocks (devs : List WDev) : Nat :=
  devs.foldl (fun m d => if d.online = true then max m d.sb.layout.nr_superblocks else m) 0

/-- One wave: every online device that still has a slot at this backup index
gets one write at that slot's offset (`write_one_super`, super-io.c:709,
with `percpu_ref_tryget` modelled as succeeding). -/
def waveWrites (devs : List WDev) (idx : Nat) : List SbWrite :=
  devs.enum.filterMap fun p =>
    if p.2.online = true ∧ idx < p.2.sb.layout.nr_superblocks then
      some ⟨p.1, p.2.sb.layout.sb_offset.getD idx 0⟩
    else none

/-- Embedding of `bch2_write_super` (super-io.c:741): bump `seq`, propagate
the image into every online device, validate every online device's image —
the first failure marks the filesystem inconsistent
(`bch2_fs_inconsistent`) and stops before any I/O — then, unless in
no-changes or error state, issue the backup-slot write waves.  Returns the
new state and the list of issued writes.  (`bch2_sb_update` at `out:` only
refreshes the cached summary `c->sb` and is not modelled.) -/
def bch2_write_super (c : FS) : FS × List SbWrite :=
  match ((propagatedDevs c).filter fun d => d.online = true).findSome?
      (fun d => bch2_sb_validate d.sb d.capacity) with
  | some _ =>
      ({ c with
          disk_sb := propagatedDisk c
          devs := propagatedDevs c
          inconsistent := true }, [])
  | none =>
      if c.nochanges = true ∨ c.fs_error = true then
        ({ c with disk_sb := propagatedDisk c, devs := propagatedDevs c }, [])
      else
        ({ c with disk_sb := propagatedDisk c, devs := propagatedDevs c },
         ((List.range (maxNrSuperblocks (propagatedDevs c))).map
           (waveWrites (propagatedDevs c))).flatten)

/-- C1: whenever at least one online device's propagated superblock image
fails validation, `bch2_write_super` marks the filesystem inconsistent and
issues no write I/O to any device — the on-disk state of every device is
unchanged by the call. -/
theorem c1_write_super_atomic_failure (c : FS)
    (h : ∃ d ∈ propagatedDevs c, d.online = true ∧
      (bch2_sb_validate d.sb d.capacity).isSome = true) :
    (bch2_write_super c).1.inconsistent = true ∧ (bch2_write_super c).2 = [] := by
  obtain ⟨d, hd, hon, hv⟩ := h
  have hmem : d ∈ (propagatedDevs c).filter fun x => x.online = true :=
    List.mem_filter.mpr ⟨hd, by simp [hon]⟩
  have hfind : ((propagatedDevs c).filter fun x => x.online = true).findSome?
      (fun x => bch2_sb_validate x.sb x.capacity) ≠ none := by
    intro hnone
    rw [List.findSome?_eq_none_iff] at hnone
    rw [hnone d hmem] at hv
    cases hv
  unfold bch2_write_super
  cases hcase : ((propagatedDevs c).filter fun d => d.online = true).findSome?
      (fun d => bch2_sb_validate d.sb d.capacity) with
  | none => exact absurd hcase hfind
  | some e => exact ⟨rfl, rfl⟩

/-- A concrete filesystem state whose authoritative image carries an
unsupported version, with one online device ready to receive it. -/
def fsBadVersion : FS :=
  { disk_sb :=
      { magic := 0, version := 0, seq := 0, uuid := 1, user_uuid := 1, label := 0,
        block_size := 8, dev_idx := 0, nr_devices := 1, u64s := 0,
        time_base_lo := 0, time_base_hi := 0, time_precision := 1,
        initialized := true, meta_replicas_want := 1, meta_replicas_req := 1,
        data_replicas_want := 1, data_replicas_req := 1, btree_node_size := 8,
        gc_reserve := 8, flags_rest := 0, features := 0, compat := 0,
        layout := ⟨BCACHE_MAGIC, 0, 3, 1, [8]⟩, fields := [] },
    devs := [⟨true,
      { magic := 0, version := 6, seq := 0, uuid := 1, user_uuid := 1, label := 0,
        block_size := 8, dev_idx := 0, nr_devices := 1, u64s := 0,
        time_base_lo := 0, time_base_hi := 0, time_precision := 1,
        initialized := true, meta_replicas_want := 1, meta_replicas_req := 1,
        data_replicas_want := 1, data_replicas_req := 1, btree_node_size := 8,
        gc_reserve := 8, flags_rest := 0, features := 0, compat := 0,
        layout := ⟨BCACHE_MAGIC, 0, 3, 1, [8]⟩, fields := [] }, 100000⟩],
    nochanges := false, fs_error := false, inconsistent := false }

/-- C1 witness: at `fsBadVersion` the propagated image inherits the bad
version, validation fails, and by the theorem the call marks the filesystem
inconsistent and issues no write. -/
theorem c1_write_super_atomic_failure_w :
    (bch2_write_super fsBadVersion).1.inconsistent = true ∧
    (bch2_write_super fsBadVersion).2 = [] :=
  c1_write_super_atomic_failure fsBadVersion (by decide)

end Val

/-! ### Read path (`read_one_super`, `bch2_read_super`, super-io.c:554,
601).

Block I/O is the collaborator: a device is a map from sector offset to the
raw superblock record readable there (`none` = I/O error) plus the separate
layout-sector read.  The checksum (`csum_vstruct`, absent checksum.c) is an
abstract function of the checksum type and the image, passed as a
parameter. -/

namespace RP

/-- Modelled from the spec: the number of supported checksum types
(`BCH_CSUM_NR`, missing format header). -/
def BCH_CSUM_NR : Nat := 3

/-- A raw superblock as decoded from a read: the header quantities
`read_one_super` inspects. -/
structure RawSb where
  magic : Nat
  version : Nat
  u64s : Nat
  sb_max_size_bits : Nat
  csum_type : Nat
  csum : Nat
  block_size : Nat
deriving Repr, DecidableEq

/-- A device: superblock reads by sector offset, the layout-sector read, and
the logical block size (`bdev_logical_block_size`). -/
structure Device where
  readSb : Nat → Option RawSb
  readLayout : Option Layout
  logical_block_size : Nat

/-- Embedding of `read_one_super` (super-io.c:554): I/O, magic, version,
size-budget, checksum-type and checksum checks, in source order.  The
grow-buffer `reread` loop re-reads the same deterministic contents with a
larger buffer, so a single read suffices (`__bch2_super_realloc` failure is
an allocation outcome, modelled as succeeding). -/
def read_one_super (csumOf : Nat → RawSb → Nat) (d : Device) (offset : Nat) :
    Except String RawSb :=
  match d.readSb offset with
  | none => .error "IO error"
  | some s =>
      if s.magic ≠ BCACHE_MAGIC then .error "Not a bcachefs superblock"
      else if s.version ≠ BCACHE_SB_VERSION_CDEV_V4 then
        .error "Unsupported superblock version"
      else if 512 <<< s.sb_max_size_bits < vstructBytesSb s.u64s then
        .error "Bad superblock: too big"
      else if BCH_CSUM_NR ≤ s.csum_type then .error "unknown csum type"
      else if csumOf s.csum_type s ≠ s.csum then
        .error "bad checksum reading superblock"
      else .ok s

/-- The `got_super:` block-size check of `bch2_read_super`
(super-io.c:684). -/
def gotSuper (d : Device) (s : RawSb) : Except String RawSb :=
  if s.block_size <<< 9 < d.logical_block_size then
    .error "Superblock block size smaller than device block size"
  else .ok s

/-- The backup loop of `bch2_read_super` (super-io.c:666): try each layout
offset in order, skipping the default sector, keeping the last error (`err`
enters the loop holding no message, the layout validation having just
passed). -/
def backupLoop (csumOf : Nat → RawSb → Nat) (d : Device) :
    List Nat → String → Except String RawSb
  | [], err => .error err
  | o :: rest, err =>
      if o = BCH_SB_SECTOR then backupLoop csumOf d rest err
      else
        match read_one_super csumOf d o with
        | .ok s => .ok s
        | .error e => backupLoop csumOf d rest e

/-- The first `nr_superblocks` offsets of a layout. -/
def layoutOffsets (l : Layout) : List Nat :=
  (List.range l.nr_superblocks).map fun i => l.sb_offset.getD i 0

/-- Embedding of `bch2_read_super` (super-io.c:601): read at the primary
offset (the caller's override or the default sector); on success, the
block-size check.  On failure with an explicit non-default offset, fail
immediately; otherwise read the layout sector, validate the layout, and try
every backup offset in order.  (Device open and the initial allocation are
environment steps modelled as succeeding; all resources are released on the
failure paths, which the model has no state for.) -/
def bch2_read_super (csumOf : Nat → RawSb → Nat) (d : Device) (optSb : Option Nat) :
    Except String RawSb :=
  match read_one_super csumOf d (optSb.getD BCH_SB_SECTOR) with
  | .ok s => gotSuper d s
  | .error e =>
      if optSb.getD BCH_SB_SECTOR ≠ BCH_SB_SECTOR then .error e
      else
        match d.readLayout with
        | none => .error "IO error"
        | some layout =>
            match validate_sb_layout layout with
            | some e2 => .error e2
            | none =>
                match backupLoop csumOf d (layoutOffsets layout) "" with
                | .ok s => gotSuper d s
                | .error e3 => .error e3

lemma backupLoop_first_ok (csumOf : Nat → RawSb → Nat) (d : Device) (s : RawSb)
    (o : Nat) (ho : o ≠ BCH_SB_SECTOR) (hok : read_one_super csumOf d o = .ok s) :
    ∀ (pre post : List Nat) (err : String),
      (∀ o' ∈ pre, o' = BCH_SB_SECTOR ∨ ∃ e, read_one_super csumOf d o' = .error e) →
      backupLoop csumOf d (pre ++ o :: post) err = .ok s := by
  intro pre
  induction pre with
  | nil =>
      intro post err _
      rw [List.nil_append]
      unfold backupLoop
      rw [if_neg ho, hok]
  | cons o' pre' ih =>
      intro post err hpre
      rw [List.cons_append]
      rcases hpre o' (by simp) with h | ⟨e, he⟩
      · unfold backupLoop
        rw [if_pos h]
        exact ih post err fun x hx => hpre x (by simp [hx])
      · by_cases hdef : o' = BCH_SB_SECTOR
        · unfold backupLoop
          rw [if_pos hdef]
          exact ih post err fun x hx => hpre x (by simp [hx])
        · unfold backupLoop
          rw [if_neg hdef, he]
          exact ih post e fun x hx => hpre x (by simp [hx])

/-- C2: (a) with an explicit non-default offset, a failed primary read makes
`bch2_read_super` fail immediately with that error; (b) with the default
offset, on primary failure the layout sector is read and validated, and the
first backup offset (in layout order, skipping the default sector) whose
read passes magic, version, size, and checksum checks supplies the result —
in particular a corrupt primary with a valid backup still yields a
successfully validated image (given the image's block size covers the
device's logical block size). -/
theorem c2_read_super_fallback (csumOf : Nat → RawSb → Nat) (d : Device) :
    (∀ o e, o ≠ BCH_SB_SECTOR → read_one_super csumOf d o = .error e →
       bch2_read_super csumOf d (some o) = .error e) ∧
    (∀ e0 layout pre o post s,
       read_one_super csumOf d BCH_SB_SECTOR = .error e0 →
       d.readLayout = some layout →
       validate_sb_layout layout = none →
       layoutOffsets layout = pre ++ o :: post →
       (∀ o' ∈ pre, o' = BCH_SB_SECTOR ∨ ∃ e, read_one_super csumOf d o' = .error e) →
       o ≠ BCH_SB_SECTOR →
       read_one_super csumOf d o = .ok s →
       d.logical_block_size ≤ s.block_size <<< 9 →
       bch2_read_super csumOf d none = .ok s) := by
  constructor
  · intro o e ho herr
    unfold bch2_read_super
    rw [show (some o).getD BCH_SB_SECTOR = o from rfl, herr]
    dsimp only
    rw [if_pos ho]
  · intro e0 layout pre o post s h0 hl hv hsplit hpre ho hok hbs
    unfold bch2_read_super
    rw [show (none : Option Nat).getD BCH_SB_SECTOR = BCH_SB_SECTOR from rfl, h0]
    dsimp only
    rw [if_neg (by simp), hl]
    dsimp only
    rw [hv]
    dsimp only
    rw [hsplit, backupLoop_first_ok csumOf d s o ho hok pre post "" hpre]
    dsimp only
    unfold gotSuper
    rw [if_neg (not_lt.mpr hbs)]

/-- C2 witness: a device whose primary superblock (sector 1016) has a bad
stored checksum but whose first backup (sector 8) is intact; by the theorem
the read falls back and returns the validated backup image. -/
theorem c2_read_super_fallback_w :
    bch2_read_super (fun _ _ => 0)
      { readSb := fun off =>
          if off = 8 then some ⟨BCACHE_MAGIC, 6, 0, 3, 1, 0, 1⟩
          else if off = 1016 then some ⟨BCACHE_MAGIC, 6, 0, 3, 1, 7, 1⟩
          else none,
        readLayout := some ⟨BCACHE_MAGIC, 0, 3, 2, [8, 1016]⟩,
        logical_block_size := 512 } none = .ok ⟨BCACHE_MAGIC, 6, 0, 3, 1, 0, 1⟩ :=
  (c2_read_super_fallback (fun _ _ => 0)
      { readSb := fun off =>
          if off = 8 then some ⟨BCACHE_MAGIC, 6, 0, 3, 1, 0, 1⟩
          else if off = 1016 then some ⟨BCACHE_MAGIC, 6, 0, 3, 1, 7, 1⟩
          else none,
        readLayout := some ⟨BCACHE_MAGIC, 0, 3, 2, [8, 1016]⟩,
        logical_block_size := 512 }).2
    "bad checksum reading superblock" ⟨BCACHE_MAGIC, 0, 3, 2, [8, 1016]⟩ [] 8 [1016]
    ⟨BCACHE_MAGIC, 6, 0, 3, 1, 0, 1⟩
    rfl rfl rfl rfl (by simp) (by decide) rfl (by decide)

end RP

end BchSB
